import Mathlib

set_option maxRecDepth 100000

/-!
Verification of the properties-scraper reconciliation core.

This file gives a shallow embedding of the repository's property
normalizer (`src/database/models.py`), the local reconciliation store
(`src/database/sync.py`) and the remote API batching orchestrator
(`src/database/api_sync.py`), and proves or refutes the frozen claims
about them.

Python values are modelled by the inductive `PyVal` (rationals stand in
for Python floats; none of the claims depends on rounding).  Fallible
Python code is modelled in the `Except PyErr` monad.  The SQLite store
is modelled by an explicit `Store` record of committed rows; a sync run
works on a pending copy and commits or rolls back, mirroring the
`sqlite3` legacy transactional mode used by `connection.py` (DML opens a
transaction, `commit` publishes, `rollback`/`close` discards).
-/

/-- Model of a Python value as it appears in the scraped property dicts. -/
inductive PyVal where
  | none : PyVal
  | str (s : String) : PyVal
  | int (n : Int) : PyVal
  | float (q : ℚ) : PyVal
  | list (xs : List PyVal) : PyVal

mutual

/-- Decidable equality of `PyVal` (the nested list forces a manual instance). -/
def PyVal.decEq : (a b : PyVal) → Decidable (a = b)
  | PyVal.none, PyVal.none => isTrue rfl
  | PyVal.none, PyVal.str _ => isFalse (fun h => PyVal.noConfusion h)
  | PyVal.none, PyVal.int _ => isFalse (fun h => PyVal.noConfusion h)
  | PyVal.none, PyVal.float _ => isFalse (fun h => PyVal.noConfusion h)
  | PyVal.none, PyVal.list _ => isFalse (fun h => PyVal.noConfusion h)
  | PyVal.str _, PyVal.none => isFalse (fun h => PyVal.noConfusion h)
  | PyVal.str a, PyVal.str b =>
    match String.decEq a b with
    | isTrue h => isTrue (congrArg PyVal.str h)
    | isFalse h => isFalse (fun hh => h (by injection hh))
  | PyVal.str _, PyVal.int _ => isFalse (fun h => PyVal.noConfusion h)
  | PyVal.str _, PyVal.float _ => isFalse (fun h => PyVal.noConfusion h)
  | PyVal.str _, PyVal.list _ => isFalse (fun h => PyVal.noConfusion h)
  | PyVal.int _, PyVal.none => isFalse (fun h => PyVal.noConfusion h)
  | PyVal.int _, PyVal.str _ => isFalse (fun h => PyVal.noConfusion h)
  | PyVal.int a, PyVal.int b =>
    if h : a = b then isTrue (congrArg PyVal.int h)
    else isFalse (fun hh => h (by injection hh))
  | PyVal.int _, PyVal.float _ => isFalse (fun h => PyVal.noConfusion h)
  | PyVal.int _, PyVal.list _ => isFalse (fun h => PyVal.noConfusion h)
  | PyVal.float _, PyVal.none => isFalse (fun h => PyVal.noConfusion h)
  | PyVal.float _, PyVal.str _ => isFalse (fun h => PyVal.noConfusion h)
  | PyVal.float _, PyVal.int _ => isFalse (fun h => PyVal.noConfusion h)
  | PyVal.float a, PyVal.float b =>
    if h : a = b then isTrue (congrArg PyVal.float h)
    else isFalse (fun hh => h (by injection hh))
  | PyVal.float _, PyVal.list _ => isFalse (fun h => PyVal.noConfusion h)
  | PyVal.list _, PyVal.none => isFalse (fun h => PyVal.noConfusion h)
  | PyVal.list _, PyVal.str _ => isFalse (fun h => PyVal.noConfusion h)
  | PyVal.list _, PyVal.int _ => isFalse (fun h => PyVal.noConfusion h)
  | PyVal.list _, PyVal.float _ => isFalse (fun h => PyVal.noConfusion h)
  | PyVal.list xs, PyVal.list ys =>
    match PyVal.decEqList xs ys with
    | isTrue h => isTrue (congrArg PyVal.list h)
    | isFalse h => isFalse (fun hh => h (by injection hh))

/-- Decidable equality of lists of `PyVal`. -/
def PyVal.decEqList : (xs ys : List PyVal) → Decidable (xs = ys)
  | [], [] => isTrue rfl
  | [], _ :: _ => isFalse (fun h => List.noConfusion h)
  | _ :: _, [] => isFalse (fun h => List.noConfusion h)
  | x :: xs, y :: ys =>
    match PyVal.decEq x y with
    | isFalse h => isFalse (fun hh => h (by injection hh))
    | isTrue h1 =>
      match PyVal.decEqList xs ys with
      | isTrue h2 => isTrue (by rw [h1, h2])
      | isFalse h => isFalse (fun hh => h (by injection hh))

end

instance : DecidableEq PyVal := PyVal.decEq

/-- A Python dict with string keys, as an ordered association list. -/
abbrev PyDict := List (String × PyVal)

/-- Model of the Python exceptions the embedded code can raise. -/
inductive PyErr where
  | typeError (msg : String) : PyErr
  | attributeError (msg : String) : PyErr
  | valueError (msg : String) : PyErr
  | dbError : PyErr
deriving DecidableEq, Repr

/-- Dict lookup, `d[k]` as an option (first binding wins). -/
def pyLookup (d : PyDict) (k : String) : Option PyVal :=
  (d.find? (fun p => p.1 == k)).map (fun p => p.2)

/-- Python `d.get(k)`: missing keys give `None`. -/
def pyGetN (d : PyDict) (k : String) : PyVal :=
  (pyLookup d k).getD PyVal.none

/-- Python `d.get(k, default)`. -/
def pyGetD (d : PyDict) (k : String) (default : PyVal) : PyVal :=
  (pyLookup d k).getD default

/-- Python truthiness of a value. -/
def truthy : PyVal → Bool
  | PyVal.none => false
  | PyVal.str s => decide (s ≠ "")
  | PyVal.int n => decide (n ≠ 0)
  | PyVal.float q => decide (q ≠ 0)
  | PyVal.list [] => false
  | PyVal.list (_ :: _) => true

/-- Decimal representation of a rational that stands in for the Python
`str()` of a float.  Exact formatting of floats is irrelevant to every
claim; integers and strings are rendered faithfully. -/
def ratStr (q : ℚ) : String :=
  if q.den = 1 then toString q.num ++ ".0" else toString q

mutual

/-- Python `str()` of a value (also used by f-string interpolation). -/
def pyStr : PyVal → String
  | PyVal.none => "None"
  | PyVal.str s => s
  | PyVal.int n => toString n
  | PyVal.float q => ratStr q
  | PyVal.list xs => "[" ++ pyStrList xs ++ "]"

/-- Comma-separated rendering of list elements for `pyStr`. -/
def pyStrList : List PyVal → String
  | [] => ""
  | [x] => pyStr x
  | x :: xs => pyStr x ++ ", " ++ pyStrList xs

end

/-- Python binary `+` (used by `total_price = rent_price + (condo_fee or 0)`):
numbers add, strings and lists concatenate, mixed operands raise `TypeError`. -/
def pyAdd : PyVal → PyVal → Except PyErr PyVal
  | PyVal.int a, PyVal.int b => Except.ok (PyVal.int (a + b))
  | PyVal.int a, PyVal.float b => Except.ok (PyVal.float (a + b))
  | PyVal.float a, PyVal.int b => Except.ok (PyVal.float (a + b))
  | PyVal.float a, PyVal.float b => Except.ok (PyVal.float (a + b))
  | PyVal.str a, PyVal.str b => Except.ok (PyVal.str (a ++ b))
  | PyVal.list a, PyVal.list b => Except.ok (PyVal.list (a ++ b))
  | _, _ => Except.error (PyErr.typeError "unsupported operand type for +")

/-- Parse a string as a Python `int` literal: optional sign then digits. -/
def parseIntStr (s : String) : Option Int :=
  let core (cs : List Char) (sign : Int) : Option Int :=
    if cs = [] then Option.none
    else if cs.all Char.isDigit then
      Option.some (sign * Int.ofNat (cs.foldl (fun a c => a * 10 + (c.toNat - 48)) 0))
    else Option.none
  match s.toList with
  | '-' :: cs => core cs (-1)
  | '+' :: cs => core cs 1
  | cs => core cs 1

/-- Parse a string as a Python `float` literal (finite decimal forms:
optional sign, digits, optional fractional part). -/
def parseFloatStr (s : String) : Option ℚ :=
  let digitsVal (cs : List Char) : Nat := cs.foldl (fun a c => a * 10 + (c.toNat - 48)) 0
  let core (cs : List Char) (sign : ℚ) : Option ℚ :=
    match cs.span (fun c => c ≠ '.') with
    | (intPart, []) =>
      if intPart ≠ [] ∧ intPart.all Char.isDigit then
        Option.some (sign * (digitsVal intPart : ℚ))
      else Option.none
    | (intPart, _ :: fracPart) =>
      if (intPart ≠ [] ∨ fracPart ≠ []) ∧ intPart.all Char.isDigit ∧
          fracPart.all Char.isDigit ∧ ¬ fracPart.contains '.' then
        Option.some (sign * ((digitsVal intPart : ℚ) +
          (digitsVal fracPart : ℚ) / ((10 : ℚ) ^ fracPart.length)))
      else Option.none
  match s.toList with
  | '-' :: cs => core cs (-1)
  | '+' :: cs => core cs 1
  | cs => core cs 1

/-- Truncation of a rational toward zero, Python `int(float)`. -/
def ratTrunc (q : ℚ) : Int :=
  if 0 ≤ q then Int.floor q else -Int.floor (-q)

/-- Embedding of `_to_int` (models.py): convert to int, `None` when not
possible (a failed `int(...)` raises `ValueError`/`TypeError`, caught). -/
def toIntV : PyVal → Option Int
  | PyVal.none => Option.none
  | PyVal.int n => Option.some n
  | PyVal.float q => Option.some (ratTrunc q)
  | PyVal.str s => parseIntStr s
  | PyVal.list _ => Option.none

/-- Embedding of `_to_float` (models.py): convert to float, `None` when not
possible. -/
def toFloatV : PyVal → Option ℚ
  | PyVal.none => Option.none
  | PyVal.int n => Option.some (n : ℚ)
  | PyVal.float q => Option.some q
  | PyVal.str s => parseFloatStr s
  | PyVal.list _ => Option.none

section Sha256

/-- Reduction modulo 2^32, for 32-bit machine arithmetic. -/
def w32 (n : Nat) : Nat := n % 4294967296

/-- 32-bit right rotation. -/
def rotr32 (r x : Nat) : Nat := w32 ((x >>> r) ||| (x <<< (32 - r)))

/-- The 64 SHA-256 round constants. -/
def sha256K : List Nat :=
  [1116352408, 1899447441, 3049323471, 3921009573, 961987163, 1508970993,
   2453635748, 2870763221, 3624381080, 310598401, 607225278, 1426881987,
   1925078388, 2162078206, 2614888103, 3248222580, 3835390401, 4022224774,
   264347078, 604807628, 770255983, 1249150122, 1555081692, 1996064986,
   2554220882, 2821834349, 2952996808, 3210313671, 3336571891, 3584528711,
   113926993, 338241895, 666307205, 773529912, 1294757372, 1396182291,
   1695183700, 1986661051, 2177026350, 2456956037, 2730485921, 2820302411,
   3259730800, 3345764771, 3516065817, 3600352804, 4094571909, 275423344,
   430227734, 506948616, 659060556, 883997877, 958139571, 1322822218,
   1537002063, 1747873779, 1955562222, 2024104815, 2227730452, 2361852424,
   2428436474, 2756734187, 3204031479, 3329325298]

/-- The SHA-256 initial hash state. -/
def sha256H0 : List Nat :=
  [1779033703, 3144134277, 1013904242, 2773480762,
   1359893119, 2600822924, 528734635, 1541459225]

/-- SHA-256 message padding over a byte list. -/
def sha256Pad (msg : List Nat) : List Nat :=
  let len := msg.length
  let padLen := (55 + 64 - len % 64) % 64 + 1
  let lenBits := len * 8
  msg ++ (128 :: List.replicate (padLen - 1) 0) ++
    ((List.range 8).reverse.map (fun i => (lenBits >>> (8 * i)) % 256))

/-- Split a byte list into big-endian 32-bit words. -/
def bytesToWords : List Nat → List Nat
  | b0 :: b1 :: b2 :: b3 :: rest =>
    (((b0 * 256 + b1) * 256 + b2) * 256 + b3) :: bytesToWords rest
  | _ => []

/-- Split a list into 16-word blocks (fuel-based structural recursion so
that the definition reduces inside the kernel). -/
def toBlocksAux : Nat → List Nat → List (List Nat)
  | 0, _ => []
  | _, [] => []
  | fuel + 1, ws => ws.take 16 :: toBlocksAux fuel (ws.drop 16)

/-- Split a list into 16-word blocks. -/
def toBlocks (ws : List Nat) : List (List Nat) :=
  toBlocksAux ws.length ws

/-- SHA-256 message schedule: extend 16 words to 64. -/
def sha256Schedule (block : List Nat) : List Nat :=
  (List.range 48).foldl
    (fun w _ =>
      let n := w.length
      let s0 :=
        let x := w.getD (n - 15) 0
        (rotr32 7 x) ^^^ (rotr32 18 x) ^^^ (x >>> 3)
      let s1 :=
        let x := w.getD (n - 2) 0
        (rotr32 17 x) ^^^ (rotr32 19 x) ^^^ (x >>> 10)
      w ++ [w32 (w.getD (n - 16) 0 + s0 + w.getD (n - 7) 0 + s1)])
    block

/-- One SHA-256 compression round. -/
def sha256Round (st : List Nat) (kw : Nat × Nat) : List Nat :=
  match st with
  | [a, b, c, d, e, f, g, h] =>
    let s1 := (rotr32 6 e) ^^^ (rotr32 11 e) ^^^ (rotr32 25 e)
    let ch := (e &&& f) ^^^ ((4294967295 - e) &&& g)
    let t1 := w32 (h + s1 + ch + kw.1 + kw.2)
    let s0 := (rotr32 2 a) ^^^ (rotr32 13 a) ^^^ (rotr32 22 a)
    let mj := (a &&& b) ^^^ (a &&& c) ^^^ (b &&& c)
    let t2 := w32 (s0 + mj)
    [w32 (t1 + t2), a, b, c, w32 (d + t1), e, f, g]
  | st => st

/-- Process one 16-word block of the SHA-256 compression function. -/
def sha256Block (h : List Nat) (block : List Nat) : List Nat :=
  let ws := sha256Schedule block
  let st := (sha256K.zip ws |>.map (fun p => (p.1, p.2))).foldl
    (fun st kw => sha256Round st kw) h
  (h.zip st).map (fun p => w32 (p.1 + p.2))

/-- SHA-256 digest of a byte list, as eight 32-bit words. -/
def sha256Words (msg : List Nat) : List Nat :=
  (toBlocks (bytesToWords (sha256Pad msg))).foldl sha256Block sha256H0

/-- Lowercase hexadecimal rendering of a 32-bit word (8 digits). -/
def hex8 (n : Nat) : String :=
  let ds := (List.range 8).reverse.map (fun i =>
    "0123456789abcdef".toList.getD ((n >>> (4 * i)) % 16) '0')
  String.mk ds

/-- Hexadecimal SHA-256 digest of a byte list (64 hex characters). -/
def sha256Hex (msg : List Nat) : String :=
  String.join ((sha256Words msg).map hex8)

/-- UTF-8 encoding of one character. -/
def utf8EncodeCharBytes (c : Char) : List Nat :=
  let n := c.toNat
  if n < 128 then [n]
  else if n < 2048 then [192 ||| (n >>> 6), 128 ||| (n &&& 63)]
  else if n < 65536 then
    [224 ||| (n >>> 12), 128 ||| ((n >>> 6) &&& 63), 128 ||| (n &&& 63)]
  else
    [240 ||| (n >>> 18), 128 ||| ((n >>> 12) &&& 63),
     128 ||| ((n >>> 6) &&& 63), 128 ||| (n &&& 63)]

/-- UTF-8 bytes of a string, Python `s.encode()`. -/
def utf8Bytes (s : String) : List Nat :=
  s.toList.foldr (fun c acc => utf8EncodeCharBytes c ++ acc) []

/-- `hashlib.sha256(s.encode()).hexdigest()` of a string. -/
def sha256HexStr (s : String) : String :=
  sha256Hex (utf8Bytes s)

end Sha256

/-- Embedding of `_generate_external_id` (models.py): SHA-256 of
`"{source}:{url}:{area}:{price}"`, truncated to 32 hex characters; the
f-string renders each looked-up value with `str()`, and missing keys
default to the empty string. -/
def generateExternalId (data : PyDict) (source : String) : String :=
  (sha256HexStr (source ++ ":" ++ pyStr (pyGetD data "property_url" (PyVal.str "")) ++ ":" ++
    pyStr (pyGetD data "area_sqft" (PyVal.str "")) ++ ":" ++
    pyStr (pyGetD data "rent_price_brl" (PyVal.str "")))).take 32

deriving instance DecidableEq for Except

/-- Model of `urllib.parse.urljoin` restricted to the http(s) URL shapes the
scraper produces: absolute references are kept, network-path and absolute-path
references are resolved against the base scheme and authority, and other
relative references replace the last segment of the base path (dot-segment
normalization is not modelled; no claim depends on it). -/
def urljoinModel (base url : String) : String :=
  if url = "" then base
  else if (url.splitOn "://").length ≥ 2 then url
  else if url.startsWith "//" then ((base.splitOn "://").headD "") ++ ":" ++ url
  else
    match base.splitOn "://" with
    | [scheme, rest] =>
      let netloc := ((rest.splitOn "/").headD "")
      let head := scheme ++ "://" ++ netloc
      if url.startsWith "/" then head ++ url
      else
        let path := rest.drop netloc.length
        let segments := path.splitOn "/"
        let dir := String.intercalate "/" segments.dropLast
        head ++ dir ++ "/" ++ url
    | _ => url

/-- The canonical property produced by the normalizer, matching the fields of
`RailsProperty` in models.py.  Free-text fields are kept as raw Python values
(the dataclass does not coerce them); numeric fields hold the coerced values. -/
structure RailsProperty where
  external_id : String
  source : String
  city : PyVal
  neighborhood : PyVal
  bedrooms : Option Int
  bathrooms : Option Int
  parking_spaces : Option Int
  area_sqm : Option ℚ
  rent_price : Option ℚ
  condo_fee : Option ℚ
  total_price : Option ℚ
  address : PyVal
  original_url : PyVal
  main_image_url : PyVal
  description : PyVal
  raw_data : PyDict
  status : String
deriving DecidableEq

/-- Embedding of the URL-resolution step of `from_procrawl`: a truthy
relative URL is joined against the base, an absolute one is kept, a falsy
value is passed through, and a truthy non-string raises `AttributeError`
(it has no `startswith`). -/
def resolveUrl (baseUrl : String) (propertyUrl : PyVal) : Except PyErr PyVal :=
  if truthy propertyUrl then
    match propertyUrl with
    | PyVal.str u =>
      if u.startsWith "http://" || u.startsWith "https://" then Except.ok (PyVal.str u)
      else Except.ok (PyVal.str (urljoinModel baseUrl u))
    | _ => Except.error (PyErr.attributeError "object has no attribute startswith")
  else Except.ok propertyUrl

/-- Embedding of the image-URL normalization step of `from_procrawl`:
a string becomes a singleton list (empty string becomes the empty list),
any other falsy value becomes the empty list, and any other truthy value is
kept as is.  No de-duplication is performed here. -/
def normalizeImages (raw : PyVal) : PyVal :=
  match raw with
  | PyVal.str s => PyVal.list (if s = "" then [] else [PyVal.str s])
  | v => if truthy v then v else PyVal.list []

/-- Python subscript `v[0]`. -/
def pyFirst : PyVal → Except PyErr PyVal
  | PyVal.list (x :: _) => Except.ok x
  | PyVal.list [] => Except.error (PyErr.valueError "list index out of range")
  | PyVal.str s =>
    if s = "" then Except.error (PyErr.valueError "string index out of range")
    else Except.ok (PyVal.str (String.mk (s.toList.take 1)))
  | _ => Except.error (PyErr.typeError "object is not subscriptable")

/-- Embedding of `main_image_url = image_urls[0] if image_urls else None`. -/
def mainImageOf (imgs : PyVal) : Except PyErr PyVal :=
  if truthy imgs then pyFirst imgs else Except.ok PyVal.none

/-- Embedding of the total-price step of `from_procrawl`:
`total_price = rent_price + (condo_fee or 0)` when `rent_price is not None`,
computed on the RAW values with Python `+` (which raises `TypeError` on a
string rent price with a numeric or missing condo fee). -/
def computeTotal (rentPrice condoFee : PyVal) : Except PyErr PyVal :=
  if rentPrice = PyVal.none then Except.ok PyVal.none
  else pyAdd rentPrice (if truthy condoFee then condoFee else PyVal.int 0)

/-- Embedding of the `raw_data` construction of `from_procrawl`. -/
def buildRawData (imageUrls additionalImages : PyVal) : PyDict :=
  (if truthy imageUrls then [("image_urls", imageUrls)] else []) ++
  (if truthy additionalImages then [("additional_images", additionalImages)] else [])

/-- Embedding of `from_procrawl` (models.py): convert a scraped property dict
to a `RailsProperty`, raising where the Python code raises. -/
def fromProcrawl (data : PyDict) (source baseUrl : String) : Except PyErr RailsProperty := do
  let originalUrl ← resolveUrl baseUrl (pyGetD data "property_url" (PyVal.str ""))
  let mainImageUrl ← mainImageOf (normalizeImages (pyGetD data "image_urls" (PyVal.list [])))
  let totalPrice ← computeTotal (pyGetN data "rent_price_brl") (pyGetN data "condo_fee_brl")
  Except.ok {
    external_id := generateExternalId data source
    source := source
    city := pyGetN data "city"
    neighborhood := pyGetN data "neighborhood"
    bedrooms := toIntV (pyGetN data "bedrooms")
    bathrooms := toIntV (pyGetN data "bathrooms")
    parking_spaces := toIntV (pyGetN data "garages")
    area_sqm := toFloatV (pyGetN data "area_sqft")
    rent_price := toFloatV (pyGetN data "rent_price_brl")
    condo_fee := toFloatV (pyGetN data "condo_fee_brl")
    total_price := toFloatV totalPrice
    address := pyGetN data "full_address"
    original_url := originalUrl
    main_image_url := mainImageUrl
    description := pyGetN data "description"
    raw_data := buildRawData (normalizeImages (pyGetD data "image_urls" (PyVal.list [])))
      (pyGetD data "additional_images" (PyVal.list []))
    status := "active" }

/-- A row of the `properties` table. -/
structure PropRow where
  id : Nat
  external_id : String
  source : String
  city : PyVal
  neighborhood : PyVal
  bedrooms : Option Int
  bathrooms : Option Int
  parking_spaces : Option Int
  area_sqm : Option ℚ
  rent_price : Option ℚ
  condo_fee : Option ℚ
  total_price : Option ℚ
  address : PyVal
  original_url : PyVal
  main_image_url : PyVal
  description : PyVal
  raw_data : Option String
  status : String
  first_seen_at : String
  last_seen_at : String
  created_at : String
  updated_at : String
deriving DecidableEq

/-- A row of the `price_histories` table. -/
structure PriceHistoryRow where
  property_id : Nat
  rent_price : Option ℚ
  condo_fee : Option ℚ
  total_price : Option ℚ
  recorded_at : String
  created_at : String
  updated_at : String
deriving DecidableEq

/-- A row of the `sync_logs` table. -/
structure SyncLogRow where
  id : Nat
  source : String
  status : String
  started_at : Option String
  finished_at : Option String
  properties_found : Option Nat
  properties_added : Option Nat
  properties_updated : Option Nat
  error_message : Option String
  created_at : String
  updated_at : String
deriving DecidableEq

/-- The SQLite store: the three tables plus the next fresh rowid of the two
tables that get inserts. -/
structure Store where
  properties : List PropRow
  priceHistories : List PriceHistoryRow
  syncLogs : List SyncLogRow
  nextPropId : Nat
  nextLogId : Nat
deriving DecidableEq

/-- Storage invariant guaranteed by SQLite: rowids are unique, and fresh
rowids do not collide with existing ones. -/
abbrev StoreWf (db : Store) : Prop :=
  (db.properties.map (fun r => r.id)).Nodup ∧ ∀ r ∈ db.properties, r.id < db.nextPropId

/-- Minimal JSON string escaping (backslash and double quote). -/
def jsonEscape (s : String) : String :=
  s.toList.foldr (fun c acc =>
    (if c = '\\' then "\\\\" else if c = '"' then "\\\"" else String.mk [c]) ++ acc) ""

/-- A JSON string literal. -/
def jsonQuote (s : String) : String := "\"" ++ jsonEscape s ++ "\""

mutual

/-- Model of `json.dumps` on the Python values stored in `raw_data`. -/
def jsonOfPyVal : PyVal → String
  | PyVal.none => "null"
  | PyVal.str s => jsonQuote s
  | PyVal.int n => toString n
  | PyVal.float q => ratStr q
  | PyVal.list xs => "[" ++ jsonOfPyList xs ++ "]"

/-- Comma-separated JSON rendering of list elements. -/
def jsonOfPyList : List PyVal → String
  | [] => ""
  | [x] => jsonOfPyVal x
  | x :: xs => jsonOfPyVal x ++ ", " ++ jsonOfPyList xs

end

/-- JSON rendering of a dict (insertion order, `json.dumps` separators). -/
def jsonOfPyDict (d : PyDict) : String :=
  let body := String.intercalate ", "
    (d.map (fun p => jsonQuote p.1 ++ ": " ++ jsonOfPyVal p.2))
  "\x7b" ++ body ++ "\x7d"

/-- Embedding of `json.dumps(prop.raw_data) if prop.raw_data else None`. -/
def rawDataJson (d : PyDict) : Option String :=
  if d = [] then Option.none else Option.some (jsonOfPyDict d)

/-- The statistics dict, as an ordered association list so that its key set
is part of the model. -/
abbrev StatsD := List (String × Nat)

/-- Dict lookup on the statistics dict. -/
def statGet (st : StatsD) (k : String) : Option Nat :=
  (st.find? (fun p => p.1 == k)).map (fun p => p.2)

/-- `stats.get(k, d)`. -/
def statGetD (st : StatsD) (k : String) (d : Nat) : Nat :=
  (statGet st k).getD d

/-- `stats[k] += 1` (the key is always present when the code runs this). -/
def statInc (st : StatsD) (k : String) : StatsD :=
  st.map (fun p => if p.1 == k then (p.1, p.2 + 1) else p)

/-- One `conn.execute` call: it may raise (an injected storage fault at the
given step index), otherwise the step counter advances. -/
def execGuard (faults : Nat → Bool) (k : Nat) : Except PyErr Nat :=
  if faults k then Except.error PyErr.dbError else Except.ok (k + 1)

/-- Embedding of `_start_sync_log`: insert a `running` row and remember its
rowid. -/
def startSyncLog (source now : String) (faults : Nat → Bool) (pend : Store)
    (k : Nat) : Except PyErr (Store × Nat × Nat) :=
  Except.map (fun k1 =>
    ({ pend with
        syncLogs := pend.syncLogs ++ [{
          id := pend.nextLogId, source := source, status := "running"
          started_at := Option.some now, finished_at := Option.none
          properties_found := Option.none, properties_added := Option.none
          properties_updated := Option.none, error_message := Option.none
          created_at := now, updated_at := now }]
        nextLogId := pend.nextLogId + 1 }, k1, pend.nextLogId))
    (execGuard faults k)

/-- Embedding of the UPDATE statement of `_finish_sync_log`. -/
def finishSyncLog (status : String) (error : Option String) (stats : StatsD)
    (logId : Nat) (now : String) (pend : Store) : Store :=
  { pend with syncLogs := pend.syncLogs.map (fun r =>
      if r.id = logId then
        { r with
          status := status, finished_at := Option.some now, updated_at := now
          properties_found := Option.some (statGetD stats "found" 0)
          properties_added := Option.some (statGetD stats "added" 0)
          properties_updated := Option.some (statGetD stats "updated" 0)
          error_message := error }
      else r) }

/-- The row written by the INSERT statement of `_insert_property`. -/
def insertRow (prop : RailsProperty) (now : String) (idv : Nat) : PropRow := {
  id := idv, external_id := prop.external_id, source := prop.source
  city := prop.city, neighborhood := prop.neighborhood, bedrooms := prop.bedrooms
  bathrooms := prop.bathrooms, parking_spaces := prop.parking_spaces
  area_sqm := prop.area_sqm, rent_price := prop.rent_price
  condo_fee := prop.condo_fee, total_price := prop.total_price
  address := prop.address, original_url := prop.original_url
  main_image_url := prop.main_image_url, description := prop.description
  raw_data := rawDataJson prop.raw_data, status := prop.status
  first_seen_at := now, last_seen_at := now, created_at := now, updated_at := now }

/-- Embedding of `_insert_property`: insert a row with
`first_seen_at = last_seen_at = now`. -/
def insertProperty (prop : RailsProperty) (now : String) (pend : Store) : Store :=
  { pend with
    properties := pend.properties ++ [insertRow prop now pend.nextPropId]
    nextPropId := pend.nextPropId + 1 }

/-- Embedding of `_price_changed`. -/
def priceChanged (oldRent oldCondo newRent newCondo : Option ℚ) : Bool :=
  decide (oldRent ≠ newRent) || decide (oldCondo ≠ newCondo)

/-- Embedding of `_record_price_history`: insert one row. -/
def recordPriceHistory (propertyId : Nat) (rent condo total : Option ℚ)
    (now : String) (pend : Store) : Store :=
  { pend with priceHistories := pend.priceHistories ++ [{
      property_id := propertyId, rent_price := rent, condo_fee := condo
      total_price := total, recorded_at := now, created_at := now, updated_at := now }] }

/-- The field assignments of the UPDATE statement of `_update_property`
(`external_id`, `source`, `first_seen_at` and `created_at` are not updated). -/
def updatedFields (prop : RailsProperty) (now : String) (r : PropRow) : PropRow :=
  { r with
    city := prop.city, neighborhood := prop.neighborhood
    bedrooms := prop.bedrooms, bathrooms := prop.bathrooms
    parking_spaces := prop.parking_spaces, area_sqm := prop.area_sqm
    rent_price := prop.rent_price, condo_fee := prop.condo_fee
    total_price := prop.total_price, address := prop.address
    original_url := prop.original_url, main_image_url := prop.main_image_url
    description := prop.description, raw_data := rawDataJson prop.raw_data
    status := "active", last_seen_at := now, updated_at := now }

/-- Embedding of `_update_property`: record price history when the stored
rent or condo fee differs (the history total is recomputed as
`(old_rent or 0) + (old_condo or 0)`), then update the row by rowid. -/
def updateProperty (faults : Nat → Bool) (existing : PropRow) (prop : RailsProperty)
    (now : String) (pend : Store) (k : Nat) : Except PyErr (Store × Nat) :=
  Except.bind
    (if priceChanged existing.rent_price existing.condo_fee prop.rent_price prop.condo_fee then
      Except.map (fun k1 =>
        (recordPriceHistory existing.id existing.rent_price existing.condo_fee
          (Option.some (existing.rent_price.getD 0 + existing.condo_fee.getD 0)) now pend, k1))
        (execGuard faults k)
    else Except.ok (pend, k))
    (fun pk => Except.map (fun k2 =>
      ({ pk.1 with properties := pk.1.properties.map (fun r =>
          if r.id = existing.id then updatedFields prop now r else r) }, k2))
      (execGuard faults pk.2))

/-- Embedding of `_upsert_property`: look up by `(external_id, source)`,
then update or insert. -/
def upsertProperty (faults : Nat → Bool) (prop : RailsProperty) (now : String)
    (pend : Store) (k : Nat) : Except PyErr (Store × Nat × String) :=
  Except.bind (execGuard faults k) (fun k1 =>
    match pend.properties.find? (fun r =>
        r.external_id == prop.external_id && r.source == prop.source) with
    | Option.some existing =>
      Except.map (fun pk => (pk.1, pk.2, "updated"))
        (updateProperty faults existing prop now pend k1)
    | Option.none =>
      Except.map (fun k2 => (insertProperty prop now pend, k2, "added"))
        (execGuard faults k1))

/-- Embedding of `_mark_removed_properties`: with an empty seen-id list the
method returns without touching the store; otherwise every `active` row of
this source whose external id was not seen is flipped to `removed`. -/
def markRemovedProperties (source : String) (faults : Nat → Bool)
    (seen : List String) (pend : Store) (k : Nat) : Except PyErr (Store × Nat) :=
  if seen = [] then Except.ok (pend, k)
  else
    Except.map (fun k1 =>
      ({ pend with properties := pend.properties.map (fun r =>
          if r.source == source && r.status == "active" && !(seen.contains r.external_id) then
            { r with status := "removed" }
          else r) }, k1))
      (execGuard faults k)

/-- The per-property loop of `sync_properties`: normalize, record the seen
external id, upsert, and count the outcome. -/
def syncLoop (source baseUrl now : String) (faults : Nat → Bool) :
    List PyDict → Store → Nat → StatsD → List String →
    Except PyErr (Store × Nat × StatsD × List String)
  | [], pend, k, stats, seen => Except.ok (pend, k, stats, seen)
  | d :: rest, pend, k, stats, seen =>
    Except.bind (fromProcrawl d source baseUrl) (fun prop =>
      Except.bind (upsertProperty faults prop now pend k) (fun pkr =>
        syncLoop source baseUrl now faults rest pkr.1 pkr.2.1 (statInc stats pkr.2.2)
          (seen ++ [prop.external_id])))

/-- The body of the `try` block of `sync_properties`: start the run log,
process every property, mark removals, finalize the log as `completed`. -/
def syncRun (source baseUrl : String) (db : Store) (props : List PyDict)
    (faults : Nat → Bool) (now : String) : Except PyErr (Store × StatsD) :=
  Except.bind (startSyncLog source now faults db 0) (fun slk =>
    Except.bind (syncLoop source baseUrl now faults props slk.1 slk.2.1
        [("added", 0), ("updated", 0), ("found", props.length)] []) (fun lr =>
      Except.bind (markRemovedProperties source faults lr.2.2.2 lr.1 lr.2.1) (fun mk =>
        Except.map (fun _ =>
          (finishSyncLog "completed" Option.none lr.2.2.1 slk.2.2 now mk.1, lr.2.2.1))
          (execGuard faults mk.2))))

/-- Embedding of `DatabaseSync.sync_properties`.  The run works on a pending
copy of the committed store; on success the pending state is committed.  On
any exception the connection is rolled back — which also discards the
`running` sync-log insert — after which `_finish_sync_log("failed", ...)`
issues an UPDATE that is never committed (the connection is closed without a
commit in the `finally` block), so the committed store is exactly the initial
one and the exception is re-raised. -/
def syncProperties (source baseUrl : String) (db : Store) (props : List PyDict)
    (faults : Nat → Bool) (now : String) : Except PyErr StatsD × Store :=
  match syncRun source baseUrl db props faults now with
  | Except.ok (pend, stats) => (Except.ok stats, pend)
  | Except.error e => (Except.error e, db)

/-- The no-fault oracle: every `conn.execute` succeeds. -/
def noFaults : Nat → Bool := fun _ => false

/-- The per-property payload of `ApiSync._property_to_dict`. -/
structure ApiProperty where
  external_id : String
  city : PyVal
  neighborhood : PyVal
  bedrooms : Option Int
  bathrooms : Option Int
  parking_spaces : Option Int
  area_sqm : Option ℚ
  rent_price : Option ℚ
  condo_fee : Option ℚ
  total_price : Option ℚ
  address : PyVal
  original_url : PyVal
  main_image_url : PyVal
  description : PyVal
  raw_data : PyDict
deriving DecidableEq

/-- Embedding of `ApiSync._property_to_dict`. -/
def propertyToDict (p : RailsProperty) : ApiProperty :=
  { external_id := p.external_id, city := p.city, neighborhood := p.neighborhood
    bedrooms := p.bedrooms, bathrooms := p.bathrooms
    parking_spaces := p.parking_spaces, area_sqm := p.area_sqm
    rent_price := p.rent_price, condo_fee := p.condo_fee
    total_price := p.total_price, address := p.address
    original_url := p.original_url, main_image_url := p.main_image_url
    description := p.description, raw_data := p.raw_data }

/-- One JSON payload sent by `ApiSync.sync_properties` for one batch. -/
structure ApiPayload where
  source : String
  base_url : String
  properties : List ApiProperty
  finalize : Bool
  all_external_ids : Option (List String)
deriving DecidableEq

/-- The up-front normalization pass of `ApiSync.sync_properties`: convert
every property before any batch is formed. -/
def normalizeAll (props : List PyDict) (source baseUrl : String) :
    Except PyErr (List ApiProperty) :=
  props.mapM (fun d => (fromProcrawl d source baseUrl).map propertyToDict)

/-- Fuel-based slicing `[l[i:i+bs] for i in range(0, len(l), bs)]`. -/
def chunkAux {α : Type} : Nat → List α → Nat → List (List α)
  | 0, _, _ => []
  | _, [], _ => []
  | fuel + 1, l, bs => l.take bs :: chunkAux fuel (l.drop bs) bs

/-- Split a list into consecutive batches of size `bs` (last one short). -/
def chunkList {α : Type} (l : List α) (bs : Nat) : List (List α) :=
  chunkAux l.length l bs

/-- Embedding of the payload construction of `ApiSync.sync_properties`:
normalize everything up front, collect the complete external-id list, split
into batches, and build one payload per batch; `finalize` is set exactly on
the last batch and `all_external_ids` is included only there.  A zero batch
size raises (Python `range` with step 0). -/
def apiSyncPayloads (source baseUrl : String) (props : List PyDict)
    (batchSize : Nat) : Except PyErr (List ApiPayload) :=
  Except.bind (normalizeAll props source baseUrl) (fun apiProps =>
    if batchSize = 0 then Except.error (PyErr.valueError "range arg 3 must not be zero")
    else
      Except.ok ((List.range (chunkList apiProps batchSize).length).map (fun i =>
        { source := source, base_url := baseUrl
          properties := (chunkList apiProps batchSize).getD i []
          finalize := decide (i + 1 = (chunkList apiProps batchSize).length)
          all_external_ids :=
            if i + 1 = (chunkList apiProps batchSize).length then
              Option.some (apiProps.map (fun p => p.external_id))
            else Option.none })))

/-! ### Concrete fixtures used by counterexamples and witnesses -/

/-- A store with no rows. -/
def emptyStore : Store :=
  { properties := [], priceHistories := [], syncLogs := [], nextPropId := 1, nextLogId := 1 }

/-- A persisted property row: active, source `"s"`, no numeric data. -/
def cexRow : PropRow := {
  id := 1, external_id := "e", source := "s"
  city := PyVal.none, neighborhood := PyVal.none, bedrooms := Option.none
  bathrooms := Option.none, parking_spaces := Option.none, area_sqm := Option.none
  rent_price := Option.none, condo_fee := Option.none, total_price := Option.none
  address := PyVal.none, original_url := PyVal.none, main_image_url := PyVal.none
  description := PyVal.none, raw_data := Option.none, status := "active"
  first_seen_at := "t0", last_seen_at := "t0", created_at := "t0", updated_at := "t0" }

/-- A store holding exactly the active row `cexRow` for source `"s"`. -/
def cexStore : Store :=
  { properties := [cexRow], priceHistories := [], syncLogs := [], nextPropId := 2, nextLogId := 1 }

/-- A scraped property with no identity fields and no numeric fields. -/
def freshDict : PyDict := [("city", PyVal.str "c")]

/-- The scraped property used for the price-history counterexample: an
integer rent price and no condo fee. -/
def priceDict : PyDict := [("rent_price_brl", PyVal.int 1000)]

/-- A persisted row whose external id matches `priceDict` and whose stored
rent, condo fee and total price are all null. -/
def priceRow : PropRow := { cexRow with external_id := generateExternalId priceDict "s" }

/-- A store holding exactly `priceRow`. -/
def priceStore : Store := { cexStore with properties := [priceRow] }

/-! ### Plumbing lemmas -/

/-- Bind on a successful `Except` computation. -/
theorem exBindOk {ε α β : Type} (a : α) (f : α → Except ε β) :
    (Except.ok a >>= f) = f a := rfl

/-- Bind on a failed `Except` computation. -/
theorem exBindErr {ε α β : Type} (e : ε) (f : α → Except ε β) :
    ((Except.error e : Except ε α) >>= f) = Except.error e := rfl

/-- Projections of a successfully normalized property: the external id,
source and status fields, the image-derived fields, and the coerced price
fields are determined by the input dict. -/
theorem fromProcrawl_ok_proj {d : PyDict} {s b : String} {p : RailsProperty}
    (h : fromProcrawl d s b = Except.ok p) :
    p.external_id = generateExternalId d s ∧ p.source = s ∧ p.status = "active" ∧
    mainImageOf (normalizeImages (pyGetD d "image_urls" (PyVal.list []))) =
      Except.ok p.main_image_url ∧
    p.raw_data = buildRawData (normalizeImages (pyGetD d "image_urls" (PyVal.list [])))
      (pyGetD d "additional_images" (PyVal.list [])) ∧
    p.rent_price = toFloatV (pyGetN d "rent_price_brl") ∧
    p.condo_fee = toFloatV (pyGetN d "condo_fee_brl") := by
  unfold fromProcrawl at h
  cases h1 : resolveUrl b (pyGetD d "property_url" (PyVal.str "")) with
  | error e => rw [h1, exBindErr] at h; exact absurd h (fun hh => Except.noConfusion hh)
  | ok ou =>
    rw [h1, exBindOk] at h
    cases h2 : mainImageOf (normalizeImages (pyGetD d "image_urls" (PyVal.list []))) with
    | error e => rw [h2, exBindErr] at h; exact absurd h (fun hh => Except.noConfusion hh)
    | ok mi =>
      rw [h2, exBindOk] at h
      cases h3 : computeTotal (pyGetN d "rent_price_brl") (pyGetN d "condo_fee_brl") with
      | error e => rw [h3, exBindErr] at h; exact absurd h (fun hh => Except.noConfusion hh)
      | ok tp =>
        rw [h3, exBindOk] at h
        injection h with h
        subst h
        refine ⟨?_, ?_, ?_, ?_, ?_, ?_, ?_⟩ <;> with_reducible rfl

/-- Rendering of a string value with `str()` is the identity. -/
theorem pyStr_str (s : String) : pyStr (PyVal.str s) = s := rfl

/-- The image normalization step keeps a list value unchanged. -/
theorem normalizeImages_list (xs : List PyVal) :
    normalizeImages (PyVal.list xs) = PyVal.list xs := by
  cases xs with
  | nil => rfl
  | cons x xs => rfl

/-! ### Claim C5 -/

/-- Claim C5: the normalizer computes `external_id` as the first 32 hex
characters of `sha256("{source}:{url}:{area}:{rent_price}")`, where a
missing url, area or rent price is treated as the empty string (the
hypotheses cover exactly the present-as-string and missing cases, since the
lookup defaults to the empty string); consequently any two inputs that
agree on the three looked-up fields get the identical external id. -/
theorem c5_external_id (d₁ d₂ : PyDict) (s url area price : String)
    (h1 : pyGetD d₁ "property_url" (PyVal.str "") = PyVal.str url)
    (h2 : pyStr (pyGetD d₁ "area_sqft" (PyVal.str "")) = area)
    (h3 : pyStr (pyGetD d₁ "rent_price_brl" (PyVal.str "")) = price)
    (h4 : pyGetD d₂ "property_url" (PyVal.str "") = pyGetD d₁ "property_url" (PyVal.str ""))
    (h5 : pyGetD d₂ "area_sqft" (PyVal.str "") = pyGetD d₁ "area_sqft" (PyVal.str ""))
    (h6 : pyGetD d₂ "rent_price_brl" (PyVal.str "") = pyGetD d₁ "rent_price_brl" (PyVal.str "")) :
    generateExternalId d₁ s =
      (sha256HexStr (s ++ ":" ++ url ++ ":" ++ area ++ ":" ++ price)).take 32 ∧
    generateExternalId d₂ s = generateExternalId d₁ s := by
  constructor
  · unfold generateExternalId
    rw [h1, pyStr_str, h2, h3]
  · unfold generateExternalId
    rw [h4, h5, h6]

/-- Witness for C5: on the empty dict every identity field is missing, so
the hash input is `"x:::"`; a dict differing in unrelated fields gets the
same external id. -/
theorem c5_external_id_witness :
    (pyGetD ([] : PyDict) "property_url" (PyVal.str "") = PyVal.str "") ∧
    generateExternalId ([] : PyDict) "x" =
      (sha256HexStr ("x" ++ ":" ++ "" ++ ":" ++ "" ++ ":" ++ "")).take 32 ∧
    generateExternalId [("bedrooms", PyVal.int 2)] "x" = generateExternalId ([] : PyDict) "x" := by
  have h := c5_external_id ([] : PyDict) [("bedrooms", PyVal.int 2)] "x" "" "" ""
    (by decide) (by decide) (by decide) (by decide) (by decide) (by decide)
  exact ⟨by decide, h.1, h.2⟩

/-! ### Claim C7 -/

/-- Claim C7 fails on the code: normalization is not total.  For the input
`{"rent_price_brl": "1000"}` the code computes
`total_price = rent_price + (condo_fee or 0)` on the raw values before any
coercion, so the string rent price is added to the integer 0 and a
`TypeError` is raised instead of returning a canonical property. -/
theorem c7_normalizer_raises :
    fromProcrawl [("rent_price_brl", PyVal.str "1000")] "s" "https://ex.com" =
      Except.error (PyErr.typeError "unsupported operand type for +") := by decide

/-! ### Claim C8 -/

/-- Claim C8 fails on the code: on the spec's own concrete scenario (url
`"/a"`, area `"50"`, rent price `"1000"`, all strings), normalization
raises a `TypeError` in the raw total-price addition, so the first sync
re-raises instead of returning `{added: 1, updated: 0, found: 1,
removed: 0}`, and the committed store is unchanged. -/
theorem c8_concrete_scenario :
    fromProcrawl [("property_url", PyVal.str "/a"), ("area_sqft", PyVal.str "50"),
        ("rent_price_brl", PyVal.str "1000")] "x" "https://ex.com" =
      Except.error (PyErr.typeError "unsupported operand type for +") ∧
    syncProperties "x" "https://ex.com" emptyStore
        [[("property_url", PyVal.str "/a"), ("area_sqft", PyVal.str "50"),
          ("rent_price_brl", PyVal.str "1000")]] noFaults "t" =
      (Except.error (PyErr.typeError "unsupported operand type for +"), emptyStore) := by
  exact ⟨by decide, by decide⟩

/-! ### Claim C2 -/

/-- Claim C2 fails on the code in its sync-log part: when an exception
occurs during a run (here the real `TypeError` of the raw total-price
addition), the rollback also discards the `running` sync-log insert and the
subsequent `failed` UPDATE is never committed (the connection is closed
without commit), so the committed store is exactly the initial one: the
exception is re-raised and no write is visible (full rollback holds), but
no sync-log record with `status = failed` and the error message exists. -/
theorem c2_failed_run :
    syncProperties "s" "https://ex.com" emptyStore
        [[("rent_price_brl", PyVal.str "1000")]] noFaults "t" =
      (Except.error (PyErr.typeError "unsupported operand type for +"), emptyStore) ∧
    (syncProperties "s" "https://ex.com" emptyStore
        [[("rent_price_brl", PyVal.str "1000")]] noFaults "t").2.syncLogs = [] := by
  exact ⟨by decide, by decide⟩

/-- The main image of an empty image list is null. -/
theorem mainImageOf_nil : mainImageOf (PyVal.list []) = Except.ok PyVal.none := rfl

/-- The main image of a non-empty image list is its first element. -/
theorem mainImageOf_cons (x : PyVal) (xs : List PyVal) :
    mainImageOf (PyVal.list (x :: xs)) = Except.ok x := rfl

/-- A truthy image value is stored under `image_urls` in `raw_data`. -/
theorem rawDataLookup_truthy (imgs A : PyVal) (h : truthy imgs = true) :
    pyLookup (buildRawData imgs A) "image_urls" = Option.some imgs := by
  unfold buildRawData
  rw [if_pos h]
  rfl

/-- A falsy image value leaves no `image_urls` key in `raw_data`. -/
theorem rawDataLookup_not_truthy (imgs A : PyVal) (h : truthy imgs = false) :
    pyLookup (buildRawData imgs A) "image_urls" = Option.none := by
  unfold buildRawData
  rw [if_neg (by rw [h]; exact Bool.false_ne_true)]
  cases truthy A with
  | true => rfl
  | false => rfl

/-! ### Claim C9 -/

/-- Claim C9 as stated is false: normalization does not remove duplicate
image URLs.  For the input `{"image_urls": ["u", "u"]}` the normalized
record carries `["u", "u"]` in `raw_data`, not the de-duplicated `["u"]`
(de-duplication happens in the upstream scraper, not in the normalizer). -/
theorem c9_dedup_counterexample :
    (fromProcrawl [("image_urls", PyVal.list [PyVal.str "u", PyVal.str "u"])] "s"
        "https://ex.com").map (fun p => (pyLookup p.raw_data "image_urls", p.main_image_url)) =
      Except.ok (Option.some (PyVal.list [PyVal.str "u", PyVal.str "u"]), PyVal.str "u") ∧
    PyVal.list [PyVal.str "u", PyVal.str "u"] ≠ PyVal.list [PyVal.str "u"] := by
  exact ⟨by decide, by decide⟩

/-- Claim C9 amended: normalization converts the image-URL input (a single
string or a list) into a list — a string becomes a singleton (or the empty
list when empty), a list is kept in order with duplicates retained;
`main_image_url` is the first element or null when the list is empty, and
`raw_data` carries the full list exactly when it is non-empty. -/
theorem c9_images_amended (d : PyDict) (s b : String) (urls : List PyVal) (p : RailsProperty)
    (h : pyGetD d "image_urls" (PyVal.list []) = PyVal.list urls)
    (hp : fromProcrawl d s b = Except.ok p) :
    p.main_image_url = urls.headD PyVal.none ∧
    pyLookup p.raw_data "image_urls" =
      (if urls = [] then Option.none else Option.some (PyVal.list urls)) ∧
    (∀ (d2 : PyDict) (u : String) (p2 : RailsProperty),
      pyGetD d2 "image_urls" (PyVal.list []) = PyVal.str u →
      fromProcrawl d2 s b = Except.ok p2 →
      p2.main_image_url = (if u = "" then PyVal.none else PyVal.str u) ∧
      pyLookup p2.raw_data "image_urls" =
        (if u = "" then Option.none else Option.some (PyVal.list [PyVal.str u]))) := by
  obtain ⟨-, -, -, hmi, hraw, -, -⟩ := fromProcrawl_ok_proj hp
  rw [h, normalizeImages_list] at hmi hraw
  refine ⟨?_, ?_, ?_⟩
  · cases urls with
    | nil => rw [mainImageOf_nil] at hmi; injection hmi with hmi; exact hmi.symm
    | cons x xs => rw [mainImageOf_cons] at hmi; injection hmi with hmi; exact hmi.symm
  · cases urls with
    | nil =>
      rw [if_pos rfl, hraw]
      exact rawDataLookup_not_truthy _ _ rfl
    | cons x xs =>
      rw [if_neg (List.cons_ne_nil x xs), hraw]
      exact rawDataLookup_truthy _ _ rfl
  · intro d2 u p2 h2 hp2
    obtain ⟨-, -, -, hmi2, hraw2, -, -⟩ := fromProcrawl_ok_proj hp2
    rw [h2] at hmi2 hraw2
    by_cases hu : u = ""
    · subst hu
      rw [show normalizeImages (PyVal.str "") = PyVal.list [] from rfl] at hmi2 hraw2
      rw [mainImageOf_nil] at hmi2
      injection hmi2 with hmi2
      refine ⟨by rw [if_pos rfl]; exact hmi2.symm, ?_⟩
      rw [if_pos rfl, hraw2]
      exact rawDataLookup_not_truthy _ _ rfl
    · have hn : normalizeImages (PyVal.str u) = PyVal.list [PyVal.str u] := by
        show PyVal.list (if u = "" then [] else [PyVal.str u]) = PyVal.list [PyVal.str u]
        rw [if_neg hu]
      rw [hn] at hmi2 hraw2
      rw [mainImageOf_cons] at hmi2
      injection hmi2 with hmi2
      refine ⟨by rw [if_neg hu]; exact hmi2.symm, ?_⟩
      rw [if_neg hu, hraw2]
      exact rawDataLookup_truthy _ _ rfl

/-- The concrete input of the C9 witness: two distinct image URLs. -/
def c9wDict : PyDict := [("image_urls", PyVal.list [PyVal.str "a", PyVal.str "b"])]

/-- The canonical property the normalizer produces for `c9wDict`. -/
def c9wProp : RailsProperty := {
  external_id := generateExternalId c9wDict "s"
  source := "s"
  city := PyVal.none, neighborhood := PyVal.none, bedrooms := Option.none
  bathrooms := Option.none, parking_spaces := Option.none, area_sqm := Option.none
  rent_price := Option.none, condo_fee := Option.none, total_price := Option.none
  address := PyVal.none, original_url := PyVal.str ""
  main_image_url := PyVal.str "a", description := PyVal.none
  raw_data := [("image_urls", PyVal.list [PyVal.str "a", PyVal.str "b"])]
  status := "active" }

/-- Witness for the amended C9: a two-image input normalizes with the first
image as `main_image_url` and the full ordered list in `raw_data`. -/
theorem c9_images_amended_witness :
    fromProcrawl c9wDict "s" "https://ex.com" = Except.ok c9wProp ∧
    c9wProp.main_image_url = ([PyVal.str "a", PyVal.str "b"]).headD PyVal.none ∧
    pyLookup c9wProp.raw_data "image_urls" =
      (if ([PyVal.str "a", PyVal.str "b"] : List PyVal) = [] then Option.none
       else Option.some (PyVal.list [PyVal.str "a", PyVal.str "b"])) := by
  have h := c9_images_amended c9wDict "s" "https://ex.com" [PyVal.str "a", PyVal.str "b"]
    c9wProp (by decide) (by decide)
  exact ⟨by decide, h.1, h.2.1⟩

/-! ### Statistics-dict lemmas -/

/-- `statInc` on a cons cell. -/
theorem statInc_cons (p : String × Nat) (st : StatsD) (k : String) :
    statInc (p :: st) k = (if (p.1 == k) = true then (p.1, p.2 + 1) else p) :: statInc st k := rfl

/-- `statGet` on a cons cell. -/
theorem statGet_cons (q : String × Nat) (st : StatsD) (k : String) :
    statGet (q :: st) k = if (q.1 == k) = true then Option.some q.2 else statGet st k := by
  by_cases hq : (q.1 == k) = true
  · rw [if_pos hq]
    unfold statGet
    rw [List.find?_cons_of_pos st (show (fun p => p.1 == k) q = true from hq)]
    rfl
  · rw [if_neg hq]
    unfold statGet
    rw [List.find?_cons_of_neg st (show ¬(fun p => p.1 == k) q = true from by simpa using hq)]

/-- Incrementing a statistics key does not change the key list. -/
theorem statInc_keys (st : StatsD) (k : String) :
    (statInc st k).map Prod.fst = st.map Prod.fst := by
  induction st with
  | nil => rfl
  | cons p st ih =>
    rw [statInc_cons, List.map_cons, List.map_cons, ih]
    congr 1
    split
    · rfl
    · rfl

/-- Incrementing one statistics key does not change another key's value. -/
theorem statGet_statInc_ne (st : StatsD) (k k' : String) (h : k' ≠ k) :
    statGet (statInc st k) k' = statGet st k' := by
  induction st with
  | nil => rfl
  | cons p st ih =>
    rw [statInc_cons, statGet_cons, statGet_cons, ih]
    by_cases hp : (p.1 == k) = true
    · have hpk : p.1 = k := by simpa using hp
      have hck : ((if (p.1 == k) = true then (p.1, p.2 + 1) else p).1 == k') = false := by
        rw [if_pos hp]
        simp only []
        simpa using fun hh => h (by rw [← hh, hpk])
      rw [hck]
      have hpk2 : (p.1 == k') = false := by
        simpa using fun hh => h (by rw [← hh, hpk])
      rw [hpk2]
      simp only [Bool.false_eq_true, if_false]
    · rw [if_neg hp]

/-- Map on a successful `Except` computation. -/
theorem exMapOk {ε α β : Type} (f : α → β) (a : α) :
    (Except.map f (Except.ok a) : Except ε β) = Except.ok (f a) := rfl

/-- Map on a failed `Except` computation. -/
theorem exMapErr {ε α β : Type} (f : α → β) (e : ε) :
    (Except.map f (Except.error e) : Except ε β) = Except.error e := rfl

/-- Explicit bind on a successful `Except` computation. -/
theorem exBindOkE {ε α β : Type} (a : α) (f : α → Except ε β) :
    Except.bind (Except.ok a) f = f a := rfl

/-- Explicit bind on a failed `Except` computation. -/
theorem exBindErrE {ε α β : Type} (e : ε) (f : α → Except ε β) :
    Except.bind (Except.error e : Except ε α) f = Except.error e := rfl

/-- A successful `execGuard` advances the step counter. -/
theorem execGuard_ok {faults : Nat → Bool} {k k2 : Nat}
    (h : execGuard faults k = Except.ok k2) : k2 = k + 1 := by
  unfold execGuard at h
  split at h
  · exact absurd h (fun hh => Except.noConfusion hh)
  · injection h with h; exact h.symm

/-- Effects of a successful `_update_property` call: the row with the
matching rowid is overwritten, the price check appends at most one history
row, and nothing else changes. -/
theorem updateProperty_ok {faults : Nat → Bool} {existing : PropRow} {prop : RailsProperty}
    {now : String} {pend pend2 : Store} {k k2 : Nat}
    (h : updateProperty faults existing prop now pend k = Except.ok (pend2, k2)) :
    pend2.properties = pend.properties.map (fun r =>
      if r.id = existing.id then updatedFields prop now r else r) ∧
    pend2.priceHistories = pend.priceHistories ++
      (if priceChanged existing.rent_price existing.condo_fee prop.rent_price prop.condo_fee
       then [{ property_id := existing.id, rent_price := existing.rent_price
               condo_fee := existing.condo_fee
               total_price := Option.some (existing.rent_price.getD 0 + existing.condo_fee.getD 0)
               recorded_at := now, created_at := now, updated_at := now }]
       else []) ∧
    pend2.syncLogs = pend.syncLogs ∧ pend2.nextPropId = pend.nextPropId ∧
    pend2.nextLogId = pend.nextLogId := by
  unfold updateProperty at h
  split at h
  case isTrue hc =>
    cases hg : execGuard faults k with
    | error e => rw [hg, exMapErr, exBindErrE] at h; exact absurd h (fun hh => Except.noConfusion hh)
    | ok k1 =>
      rw [hg, exMapOk, exBindOkE] at h
      cases hg2 : execGuard faults k1 with
      | error e => rw [hg2, exMapErr] at h; exact absurd h (fun hh => Except.noConfusion hh)
      | ok k3 =>
        rw [hg2, exMapOk] at h
        injection h with h
        injection h with h1 h2
        subst h1
        rw [if_pos hc]
        exact ⟨rfl, rfl, rfl, rfl, rfl⟩
  case isFalse hc =>
    rw [exBindOkE] at h
    cases hg2 : execGuard faults k with
    | error e => rw [hg2, exMapErr] at h; exact absurd h (fun hh => Except.noConfusion hh)
    | ok k3 =>
      rw [hg2, exMapOk] at h
      injection h with h
      injection h with h1 h2
      subst h1
      rw [if_neg hc]
      exact ⟨rfl, by rw [List.append_nil], rfl, rfl, rfl⟩

/-- Effects of a successful `_upsert_property` call. -/
theorem upsertProperty_ok {faults : Nat → Bool} {prop : RailsProperty} {now : String}
    {pend pend2 : Store} {k k2 : Nat} {res : String}
    (h : upsertProperty faults prop now pend k = Except.ok (pend2, k2, res)) :
    (res = "added" ∨ res = "updated") ∧
    (∃ t, pend2.priceHistories = pend.priceHistories ++ t) ∧
    pend2.syncLogs = pend.syncLogs ∧ pend2.nextLogId = pend.nextLogId ∧
    ((∃ existing, pend.properties.find? (fun r =>
          r.external_id == prop.external_id && r.source == prop.source) = Option.some existing ∧
        pend2.properties = pend.properties.map (fun r =>
          if r.id = existing.id then updatedFields prop now r else r) ∧
        pend2.nextPropId = pend.nextPropId) ∨
      (pend.properties.find? (fun r =>
          r.external_id == prop.external_id && r.source == prop.source) = Option.none ∧
        pend2 = insertProperty prop now pend)) := by
  unfold upsertProperty at h
  cases hg : execGuard faults k with
  | error e => rw [hg, exBindErrE] at h; exact absurd h (fun hh => Except.noConfusion hh)
  | ok k1 =>
    rw [hg, exBindOkE] at h
    split at h
    · rename_i existing hf
      cases hu : updateProperty faults existing prop now pend k1 with
      | error e => rw [hu, exMapErr] at h; exact absurd h (fun hh => Except.noConfusion hh)
      | ok pk =>
        rw [hu, exMapOk] at h
        injection h with h
        injection h with h1 h
        injection h with h2 h3
        subst h1; subst h3
        obtain ⟨hpr, hhist, hlog, hnpi, hnli⟩ :=
          updateProperty_ok (show updateProperty faults existing prop now pend k1 =
            Except.ok (pk.1, pk.2) from hu)
        refine ⟨Or.inr rfl, ⟨_, hhist⟩, hlog, hnli, Or.inl ⟨existing, hf, hpr, hnpi⟩⟩
    · rename_i hf
      cases hg2 : execGuard faults k1 with
      | error e => rw [hg2, exMapErr] at h; exact absurd h (fun hh => Except.noConfusion hh)
      | ok k3 =>
        rw [hg2, exMapOk] at h
        injection h with h
        injection h with h1 h
        injection h with h2 h3
        subst h1; subst h3
        refine ⟨Or.inl rfl, ⟨[], by rw [List.append_nil]; rfl⟩, rfl, rfl, Or.inr ⟨hf, rfl⟩⟩

/-- Effects of a successful pass of the per-property loop. -/
theorem syncLoop_ok {source baseUrl now : String} {faults : Nat → Bool} :
    ∀ (props : List PyDict) (pend : Store) (k : Nat) (stats : StatsD) (seen : List String)
      (pend2 : Store) (k2 : Nat) (stats2 : StatsD) (seen2 : List String),
      syncLoop source baseUrl now faults props pend k stats seen =
        Except.ok (pend2, k2, stats2, seen2) →
      seen2 = seen ++ props.map (fun d => generateExternalId d source) ∧
      stats2.map Prod.fst = stats.map Prod.fst ∧
      statGet stats2 "found" = statGet stats "found" ∧
      statGet stats2 "removed" = statGet stats "removed" ∧
      (∃ t, pend2.priceHistories = pend.priceHistories ++ t) ∧
      pend2.syncLogs = pend.syncLogs ∧ pend2.nextLogId = pend.nextLogId := by
  intro props
  induction props with
  | nil =>
    intro pend k stats seen pend2 k2 stats2 seen2 h
    injection h with h
    injection h with h1 h
    injection h with h2 h
    injection h with h3 h4
    subst h1; subst h3; subst h4
    exact ⟨by rw [List.map_nil, List.append_nil], rfl, rfl, rfl,
      ⟨[], by rw [List.append_nil]⟩, rfl, rfl⟩
  | cons d rest ih =>
    intro pend k stats seen pend2 k2 stats2 seen2 h
    unfold syncLoop at h
    cases hfp : fromProcrawl d source baseUrl with
    | error e => rw [hfp, exBindErrE] at h; exact absurd h (fun hh => Except.noConfusion hh)
    | ok prop =>
      rw [hfp, exBindOkE] at h
      cases hup : upsertProperty faults prop now pend k with
      | error e => rw [hup, exBindErrE] at h; exact absurd h (fun hh => Except.noConfusion hh)
      | ok pkr =>
        rw [hup, exBindOkE] at h
        obtain ⟨hseen, hkeys, hfound, hremoved, ⟨t2, hhist2⟩, hlog2, hnli2⟩ :=
          ih pkr.1 pkr.2.1 (statInc stats pkr.2.2) (seen ++ [prop.external_id])
            pend2 k2 stats2 seen2 h
        obtain ⟨hres, ⟨t1, hhist1⟩, hlog1, hnli1, -⟩ :=
          upsertProperty_ok (show upsertProperty faults prop now pend k =
            Except.ok (pkr.1, pkr.2.1, pkr.2.2) from hup)
        have hext : prop.external_id = generateExternalId d source :=
          (fromProcrawl_ok_proj hfp).1
        have hresf : ("found" : String) ≠ pkr.2.2 := by
          cases hres with
          | inl hr => rw [hr]; decide
          | inr hr => rw [hr]; decide
        have hresr : ("removed" : String) ≠ pkr.2.2 := by
          cases hres with
          | inl hr => rw [hr]; decide
          | inr hr => rw [hr]; decide
        refine ⟨?_, ?_, ?_, ?_, ?_, ?_, ?_⟩
        · rw [hseen, hext, List.map_cons, List.append_assoc]
          rfl
        · rw [hkeys, statInc_keys]
        · rw [hfound, statGet_statInc_ne stats pkr.2.2 "found" hresf]
        · rw [hremoved, statGet_statInc_ne stats pkr.2.2 "removed" hresr]
        · exact ⟨t1 ++ t2, by rw [hhist2, hhist1, List.append_assoc]⟩
        · rw [hlog2, hlog1]
        · rw [hnli2, hnli1]

/-- `finishSyncLog` only touches the `sync_logs` table. -/
theorem finishSyncLog_proj (status : String) (error : Option String) (stats : StatsD)
    (logId : Nat) (now : String) (pend : Store) :
    (finishSyncLog status error stats logId now pend).properties = pend.properties ∧
    (finishSyncLog status error stats logId now pend).priceHistories = pend.priceHistories ∧
    (finishSyncLog status error stats logId now pend).nextPropId = pend.nextPropId := by
  exact ⟨rfl, rfl, rfl⟩

/-- Effects of a successful `_start_sync_log` call. -/
theorem startSyncLog_ok {source now : String} {faults : Nat → Bool} {pend : Store}
    {k : Nat} {p1 : Store} {k1 logId : Nat}
    (h : startSyncLog source now faults pend k = Except.ok (p1, k1, logId)) :
    p1.properties = pend.properties ∧ p1.priceHistories = pend.priceHistories ∧
    p1.nextPropId = pend.nextPropId := by
  unfold startSyncLog at h
  cases hg : execGuard faults k with
  | error e => rw [hg, exMapErr] at h; exact absurd h (fun hh => Except.noConfusion hh)
  | ok kk =>
    rw [hg, exMapOk] at h
    injection h with h
    injection h with h1 h
    subst h1
    exact ⟨rfl, rfl, rfl⟩

/-- Effects of a successful `_mark_removed_properties` call. -/
theorem markRemoved_ok {source : String} {faults : Nat → Bool} {seen : List String}
    {pend : Store} {k : Nat} {p3 : Store} {k3 : Nat}
    (h : markRemovedProperties source faults seen pend k = Except.ok (p3, k3)) :
    (seen = [] ∧ p3 = pend) ∨
    (seen ≠ [] ∧ p3.properties = pend.properties.map (fun r =>
        if r.source == source && r.status == "active" && !(seen.contains r.external_id) then
          { r with status := "removed" }
        else r) ∧
      p3.priceHistories = pend.priceHistories ∧ p3.syncLogs = pend.syncLogs ∧
      p3.nextPropId = pend.nextPropId ∧ p3.nextLogId = pend.nextLogId) := by
  unfold markRemovedProperties at h
  split at h
  case isTrue hs =>
    injection h with h
    injection h with h1 h2
    exact Or.inl ⟨hs, h1.symm⟩
  case isFalse hs =>
    cases hg : execGuard faults k with
    | error e => rw [hg, exMapErr] at h; exact absurd h (fun hh => Except.noConfusion hh)
    | ok kk =>
      rw [hg, exMapOk] at h
      injection h with h
      injection h with h1 h2
      subst h1
      exact Or.inr ⟨hs, rfl, rfl, rfl, rfl, rfl⟩

/-- Decomposition of a successful `syncRun`. -/
theorem syncRun_ok {source baseUrl : String} {db : Store} {props : List PyDict}
    {faults : Nat → Bool} {now : String} {pend : Store} {stats : StatsD}
    (h : syncRun source baseUrl db props faults now = Except.ok (pend, stats)) :
    ∃ p1 k1 logId p2 k2 seen p3 k3,
      startSyncLog source now faults db 0 = Except.ok (p1, k1, logId) ∧
      syncLoop source baseUrl now faults props p1 k1
        [("added", 0), ("updated", 0), ("found", props.length)] [] =
        Except.ok (p2, k2, stats, seen) ∧
      markRemovedProperties source faults seen p2 k2 = Except.ok (p3, k3) ∧
      pend = finishSyncLog "completed" Option.none stats logId now p3 := by
  unfold syncRun at h
  cases hs : startSyncLog source now faults db 0 with
  | error e => rw [hs, exBindErrE] at h; exact absurd h (fun hh => Except.noConfusion hh)
  | ok slk =>
    rw [hs, exBindOkE] at h
    cases hl : syncLoop source baseUrl now faults props slk.1 slk.2.1
        [("added", 0), ("updated", 0), ("found", props.length)] [] with
    | error e => rw [hl, exBindErrE] at h; exact absurd h (fun hh => Except.noConfusion hh)
    | ok lr =>
      rw [hl, exBindOkE] at h
      cases hm : markRemovedProperties source faults lr.2.2.2 lr.1 lr.2.1 with
      | error e => rw [hm, exBindErrE] at h; exact absurd h (fun hh => Except.noConfusion hh)
      | ok mk =>
        rw [hm, exBindOkE] at h
        cases hg : execGuard faults mk.2 with
        | error e => rw [hg, exMapErr] at h; exact absurd h (fun hh => Except.noConfusion hh)
        | ok k4 =>
          rw [hg, exMapOk] at h
          injection h with h
          injection h with h1 h2
          subst h2
          exact ⟨slk.1, slk.2.1, slk.2.2, lr.1, lr.2.1, lr.2.2.2, mk.1, mk.2,
            rfl, hl, hm, h1.symm⟩

/-! ### Claim C6 -/

/-- Claim C6 as stated is false: a successful local sync returns a
statistics dict with only the keys added, updated and found — there is no
`removed` key (the remote API backend is the only one that reports
`removed`). -/
theorem c6_counterexample :
    (syncProperties "s" "https://ex.com" emptyStore [] noFaults "t").1 =
      Except.ok [("added", 0), ("updated", 0), ("found", 0)] ∧
    statGet [("added", 0), ("updated", 0), ("found", 0)] "removed" = Option.none := by
  exact ⟨by decide, by decide⟩

/-- Claim C6 amended: every successful local sync returns a statistics dict
whose keys are exactly added, updated and found, with found equal to the
number of input properties and no removed key present. -/
theorem c6_stats_keys (source baseUrl now : String) (faults : Nat → Bool) (db : Store)
    (props : List PyDict) (st : StatsD)
    (h : (syncProperties source baseUrl db props faults now).1 = Except.ok st) :
    st.map Prod.fst = ["added", "updated", "found"] ∧
    statGetD st "found" 0 = props.length ∧
    statGet st "removed" = Option.none := by
  unfold syncProperties at h
  cases hrun : syncRun source baseUrl db props faults now with
  | error e => rw [hrun] at h; exact absurd h (fun hh => Except.noConfusion hh)
  | ok pst =>
    obtain ⟨pend, stats⟩ := pst
    rw [hrun] at h
    replace h : Except.ok stats = Except.ok st := h
    injection h with h
    subst h
    obtain ⟨p1, k1, logId, p2, k2, seen, p3, k3, hs, hl, hm, hfin⟩ := syncRun_ok hrun
    obtain ⟨-, hkeys, hfound, hremoved, -, -, -⟩ :=
      syncLoop_ok props p1 k1 [("added", 0), ("updated", 0), ("found", props.length)] []
        p2 k2 stats seen hl
    refine ⟨?_, ?_, ?_⟩
    · rw [hkeys]; rfl
    · unfold statGetD
      rw [hfound]
      rfl
    · rw [hremoved]
      rfl

/-- Witness for the amended C6: the concrete empty successful run has
exactly the three keys, found = 0, and no removed key. -/
theorem c6_stats_keys_witness :
    (syncProperties "s" "https://ex.com" emptyStore [] noFaults "t").1 =
      Except.ok [("added", 0), ("updated", 0), ("found", 0)] ∧
    ([("added", 0), ("updated", 0), ("found", 0)] : StatsD).map Prod.fst =
      ["added", "updated", "found"] ∧
    statGetD [("added", 0), ("updated", 0), ("found", 0)] "found" 0 = ([] : List PyDict).length ∧
    statGet [("added", 0), ("updated", 0), ("found", 0)] "removed" = Option.none := by
  have h : (syncProperties "s" "https://ex.com" emptyStore [] noFaults "t").1 =
      Except.ok [("added", 0), ("updated", 0), ("found", 0)] := by decide
  have hc := c6_stats_keys "s" "https://ex.com" "t" noFaults emptyStore []
    [("added", 0), ("updated", 0), ("found", 0)] h
  exact ⟨h, hc.1, hc.2.1, hc.2.2⟩

/-! ### Claim C4 -/

/-- Claim C4 as stated is false in its total-price part: updating the
stored row (null rent, null condo fee, null total price) with a property
whose rent is 1000 creates exactly one price-history entry capturing the
pre-change rent and condo fee, but its total price is the recomputed
`(old_rent or 0) + (old_condo or 0)`, not the stored pre-change total
price, which was null. -/
theorem c4_counterexample :
    ((syncProperties "s" "https://ex.com" priceStore [priceDict] noFaults "t").2.priceHistories.map
      (fun hrow => (hrow.property_id, hrow.rent_price, hrow.condo_fee))) =
      [(1, Option.none, Option.none)] ∧
    ((syncProperties "s" "https://ex.com" priceStore [priceDict] noFaults "t").2.priceHistories.map
      (fun hrow => hrow.total_price)) ≠ [priceRow.total_price] ∧
    priceRow.total_price = Option.none := by
  exact ⟨by decide, by decide, rfl⟩

/-- Claim C4 amended: an update of an existing property appends exactly one
price-history entry if and only if the stored rent price or condo fee
differs from the incoming value; the entry captures the pre-change rent and
condo fee and a total recomputed as `(old rent or 0) + (old condo fee or 0)`
(which can differ from the stored pre-change total price); and across any
sync run price-history rows are only ever appended, never updated or
deleted. -/
theorem c4_price_history (existing : PropRow) (prop : RailsProperty) (now : String)
    (pend : Store) (k : Nat) (pend2 : Store) (k2 : Nat) (faults : Nat → Bool)
    (h : updateProperty faults existing prop now pend k = Except.ok (pend2, k2)) :
    pend2.priceHistories = pend.priceHistories ++
      (if priceChanged existing.rent_price existing.condo_fee prop.rent_price prop.condo_fee
       then [{ property_id := existing.id, rent_price := existing.rent_price
               condo_fee := existing.condo_fee
               total_price := Option.some (existing.rent_price.getD 0 + existing.condo_fee.getD 0)
               recorded_at := now, created_at := now, updated_at := now }]
       else []) ∧
    (∀ (s b : String) (db : Store) (ps : List PyDict) (f : Nat → Bool) (n : String),
      ∃ t, (syncProperties s b db ps f n).2.priceHistories = db.priceHistories ++ t) := by
  constructor
  · exact (updateProperty_ok h).2.1
  · intro s b db ps f n
    unfold syncProperties
    cases hrun : syncRun s b db ps f n with
    | error e => exact ⟨[], by rw [List.append_nil]⟩
    | ok pst =>
      obtain ⟨pend3, stats⟩ := pst
      obtain ⟨p1, k1, logId, p2, kk2, seen, p3, k3, hs, hl, hm, hfin⟩ := syncRun_ok hrun
      obtain ⟨-, hh1, -⟩ := startSyncLog_ok hs
      obtain ⟨-, -, -, -, ⟨t, hh2⟩, -, -⟩ :=
        syncLoop_ok ps p1 k1 [("added", 0), ("updated", 0), ("found", ps.length)] []
          p2 kk2 stats seen hl
      have hh3 : p3.priceHistories = p2.priceHistories := by
        cases markRemoved_ok hm with
        | inl hc => rw [hc.2]
        | inr hc => exact hc.2.2.1
      refine ⟨t, ?_⟩
      show pend3.priceHistories = db.priceHistories ++ t
      rw [hfin]
      show p3.priceHistories = db.priceHistories ++ t
      rw [hh3, hh2, hh1]

/-- Witness for the amended C4: a no-price-change update appends no
price-history entry. -/
theorem c4_price_history_witness :
    updateProperty noFaults cexRow c9wProp "t" cexStore 0 =
      Except.ok ({ cexStore with properties := [updatedFields c9wProp "t" cexRow] }, 1) ∧
    ({ cexStore with properties := [updatedFields c9wProp "t" cexRow] } : Store).priceHistories =
      cexStore.priceHistories ++
      (if priceChanged cexRow.rent_price cexRow.condo_fee c9wProp.rent_price c9wProp.condo_fee
       then [{ property_id := cexRow.id, rent_price := cexRow.rent_price
               condo_fee := cexRow.condo_fee
               total_price := Option.some (cexRow.rent_price.getD 0 + cexRow.condo_fee.getD 0)
               recorded_at := "t", created_at := "t", updated_at := "t" }]
       else []) := by
  have h : updateProperty noFaults cexRow c9wProp "t" cexStore 0 =
      Except.ok ({ cexStore with properties := [updatedFields c9wProp "t" cexRow] }, 1) := by
    decide
  exact ⟨h, (c4_price_history cexRow c9wProp "t" cexStore 0 _ 1 noFaults h).1⟩

/-- A field update via `updatedFields` keeps the rowid. -/
theorem updatedFields_id (prop : RailsProperty) (now : String) (r : PropRow) :
    (updatedFields prop now r).id = r.id := rfl

/-- A row whose external id differs from the upserted property's external
id is untouched by the upsert, and the storage invariant is preserved. -/
theorem upsert_preserves_row {faults : Nat → Bool} {prop : RailsProperty} {now : String}
    {pend pend2 : Store} {k k2 : Nat} {res : String} {r : PropRow}
    (h : upsertProperty faults prop now pend k = Except.ok (pend2, k2, res))
    (hwf : StoreWf pend) (hr : r ∈ pend.properties)
    (hne : r.external_id ≠ prop.external_id) :
    r ∈ pend2.properties ∧ StoreWf pend2 := by
  obtain ⟨-, -, -, -, hcase⟩ := upsertProperty_ok h
  cases hcase with
  | inl hupd =>
    obtain ⟨existing, hf, hpr, hnpi⟩ := hupd
    have hmem : existing ∈ pend.properties := List.mem_of_find?_eq_some hf
    have hpred := List.find?_some hf
    have hext : existing.external_id = prop.external_id := by
      have hsplit := (Bool.and_eq_true _ _).mp hpred
      exact eq_of_beq hsplit.1
    have hrne : r ≠ existing := fun hh => hne (by rw [hh, hext])
    have hid : r.id ≠ existing.id := by
      intro hh
      exact hrne (List.inj_on_of_nodup_map hwf.1 hr hmem hh)
    have hids : (pend.properties.map (fun rr =>
        if rr.id = existing.id then updatedFields prop now rr else rr)).map (fun rr => rr.id) =
        pend.properties.map (fun rr => rr.id) := by
      rw [List.map_map]
      apply List.map_congr_left
      intro a _
      by_cases hc : a.id = existing.id
      · show (if a.id = existing.id then updatedFields prop now a else a).id = a.id
        rw [if_pos hc, updatedFields_id]
      · show (if a.id = existing.id then updatedFields prop now a else a).id = a.id
        rw [if_neg hc]
    refine ⟨?_, ?_, ?_⟩
    · rw [hpr]
      have himg : (fun rr => if rr.id = existing.id then updatedFields prop now rr else rr) r
          = r := by
        show (if r.id = existing.id then updatedFields prop now r else r) = r
        rw [if_neg hid]
      rw [← himg]
      exact List.mem_map_of_mem _ hr
    · rw [hpr, hids]
      exact hwf.1
    · rw [hpr, hnpi]
      intro rr hrr
      obtain ⟨a, ha, rfl⟩ := List.mem_map.mp hrr
      by_cases hc : a.id = existing.id
      · show (if a.id = existing.id then updatedFields prop now a else a).id < pend.nextPropId
        rw [if_pos hc, updatedFields_id]
        exact hwf.2 a ha
      · show (if a.id = existing.id then updatedFields prop now a else a).id < pend.nextPropId
        rw [if_neg hc]
        exact hwf.2 a ha
  | inr hins =>
    obtain ⟨-, rfl⟩ := hins
    refine ⟨?_, ?_, ?_⟩
    · show r ∈ pend.properties ++ [insertRow prop now pend.nextPropId]
      exact List.mem_append_left _ hr
    · show ((pend.properties ++ [insertRow prop now pend.nextPropId]).map
        (fun rr => rr.id)).Nodup
      rw [List.map_append, List.nodup_append]
      refine ⟨hwf.1, List.nodup_singleton _, ?_⟩
      intro x hx hx2
      obtain ⟨a, ha, rfl⟩ := List.mem_map.mp hx
      have hlt := hwf.2 a ha
      have hxid : a.id = (insertRow prop now pend.nextPropId).id := by
        simpa using hx2
      rw [show (insertRow prop now pend.nextPropId).id = pend.nextPropId from rfl] at hxid
      omega
    · show ∀ rr ∈ pend.properties ++ [insertRow prop now pend.nextPropId],
        rr.id < pend.nextPropId + 1
      intro rr hrr
      rcases List.mem_append.mp hrr with hl | hl
      · exact Nat.lt_succ_of_lt (hwf.2 rr hl)
      · rcases List.mem_singleton.mp hl with rfl
        show pend.nextPropId < pend.nextPropId + 1
        omega

/-- Rows of the initial store whose external id is not among the upserted
ids survive the loop untouched, and the storage invariant is preserved. -/
theorem syncLoop_preserves {source baseUrl now : String} {faults : Nat → Bool} :
    ∀ (props : List PyDict) (pend : Store) (k : Nat) (stats : StatsD) (seen : List String)
      (pend2 : Store) (k2 : Nat) (stats2 : StatsD) (seen2 : List String) (r : PropRow),
      syncLoop source baseUrl now faults props pend k stats seen =
        Except.ok (pend2, k2, stats2, seen2) →
      StoreWf pend → r ∈ pend.properties →
      r.external_id ∉ props.map (fun d => generateExternalId d source) →
      r ∈ pend2.properties ∧ StoreWf pend2 := by
  intro props
  induction props with
  | nil =>
    intro pend k stats seen pend2 k2 stats2 seen2 r h hwf hr _
    injection h with h
    injection h with h1 h
    subst h1
    exact ⟨hr, hwf⟩
  | cons d rest ih =>
    intro pend k stats seen pend2 k2 stats2 seen2 r h hwf hr hnin
    unfold syncLoop at h
    cases hfp : fromProcrawl d source baseUrl with
    | error e => rw [hfp, exBindErrE] at h; exact absurd h (fun hh => Except.noConfusion hh)
    | ok prop =>
      rw [hfp, exBindOkE] at h
      cases hup : upsertProperty faults prop now pend k with
      | error e => rw [hup, exBindErrE] at h; exact absurd h (fun hh => Except.noConfusion hh)
      | ok pkr =>
        rw [hup, exBindOkE] at h
        have hne : r.external_id ≠ prop.external_id := by
          rw [(fromProcrawl_ok_proj hfp).1]
          intro hh
          apply hnin
          rw [List.map_cons, hh]
          exact List.mem_cons_self _ _
        obtain ⟨hr1, hwf1⟩ := upsert_preserves_row
          (show upsertProperty faults prop now pend k =
            Except.ok (pkr.1, pkr.2.1, pkr.2.2) from hup) hwf hr hne
        exact ih pkr.1 pkr.2.1 (statInc stats pkr.2.2) (seen ++ [prop.external_id])
          pend2 k2 stats2 seen2 r h hwf1 hr1
          (fun hh => hnin (by rw [List.map_cons]; exact List.mem_cons_of_mem _ hh))

/-! ### Claim C1 -/

/-- Claim C1 as stated is false for the empty input: syncing an empty
property list leaves the source's unseen active rows active, because
`_mark_removed_properties` returns without issuing any UPDATE when the
seen-id list is empty, while the claim requires every unseen active row to
transition to removed in this case too. -/
theorem c1_counterexample :
    (syncProperties "s" "https://ex.com" cexStore [] noFaults "t").1 =
      Except.ok [("added", 0), ("updated", 0), ("found", 0)] ∧
    (syncProperties "s" "https://ex.com" cexStore [] noFaults "t").2.properties = [cexRow] ∧
    cexRow.status = "active" ∧ cexRow.source = "s" := by
  exact ⟨by decide, by decide, rfl, rfl⟩

/-- Claim C1 amended: for every successful sync run over a non-empty input
list, every persisted row of this source that is active and whose external
id is not among the external ids of this run is transitioned to
`status = removed` in the committed store. -/
theorem c1_mark_removed (source baseUrl now : String) (faults : Nat → Bool) (db : Store)
    (props : List PyDict) (st : StatsD) (r : PropRow)
    (hwf : StoreWf db) (hne : props ≠ [])
    (h : (syncProperties source baseUrl db props faults now).1 = Except.ok st)
    (hr : r ∈ db.properties) (hsrc : r.source = source) (hact : r.status = "active")
    (hseen : r.external_id ∉ props.map (fun d => generateExternalId d source)) :
    { r with status := "removed" } ∈
      (syncProperties source baseUrl db props faults now).2.properties := by
  unfold syncProperties at h ⊢
  cases hrun : syncRun source baseUrl db props faults now with
  | error e => rw [hrun] at h; exact absurd h (fun hh => Except.noConfusion hh)
  | ok pst =>
    obtain ⟨pend, stats⟩ := pst
    show { r with status := "removed" } ∈ pend.properties
    obtain ⟨p1, k1, logId, p2, k2, seen, p3, k3, hs, hl, hm, hfin⟩ := syncRun_ok hrun
    obtain ⟨hp1, -, hnpi1⟩ := startSyncLog_ok hs
    have hwf1 : StoreWf p1 := by
      refine ⟨?_, ?_⟩
      · rw [hp1]; exact hwf.1
      · rw [hp1, hnpi1]; exact hwf.2
    obtain ⟨hr2, hwf2⟩ := syncLoop_preserves props p1 k1
      [("added", 0), ("updated", 0), ("found", props.length)] [] p2 k2 stats seen r hl hwf1
      (by rw [hp1]; exact hr) hseen
    obtain ⟨hseenEq, -, -, -, -, -, -⟩ :=
      syncLoop_ok props p1 k1 [("added", 0), ("updated", 0), ("found", props.length)] []
        p2 k2 stats seen hl
    rw [List.nil_append] at hseenEq
    have hsne : ¬(seen = []) := by
      rw [hseenEq]
      intro hh
      exact hne (List.map_eq_nil_iff.mp hh)
    cases markRemoved_ok hm with
    | inl hc => exact absurd hc.1 hsne
    | inr hc =>
      obtain ⟨-, hp3, -, -, -, -⟩ := hc
      rw [hfin]
      show { r with status := "removed" } ∈ p3.properties
      rw [hp3]
      have h3 : seen.contains r.external_id = false := by
        rw [hseenEq]
        apply Bool.eq_false_iff.mpr
        intro hc2
        exact hseen (List.elem_iff.mp hc2)
      have hpred : (r.source == source && r.status == "active" &&
          !(seen.contains r.external_id)) = true := by
        have h1 : (r.source == source) = true := by rw [hsrc]; exact beq_self_eq_true _
        have h2 : (r.status == "active") = true := by rw [hact]; exact beq_self_eq_true _
        rw [h1, h2, h3]
        rfl
      have himg : (fun rr => if rr.source == source && rr.status == "active" &&
          !(seen.contains rr.external_id) then { rr with status := "removed" } else rr) r =
          { r with status := "removed" } := by
        show (if r.source == source && r.status == "active" &&
          !(seen.contains r.external_id) then { r with status := "removed" } else r) = _
        rw [if_pos hpred]
      rw [← himg]
      exact List.mem_map_of_mem _ hr2

/-- Witness for the amended C1: a one-element run over a store holding one
active unseen row flips that row to removed. -/
theorem c1_mark_removed_witness :
    ([freshDict] ≠ ([] : List PyDict)) ∧ StoreWf cexStore ∧
    (syncProperties "s" "https://ex.com" cexStore [freshDict] noFaults "t").1 =
      Except.ok [("added", 1), ("updated", 0), ("found", 1)] ∧
    cexRow ∈ cexStore.properties ∧ cexRow.source = "s" ∧ cexRow.status = "active" ∧
    cexRow.external_id ∉ [freshDict].map (fun d => generateExternalId d "s") ∧
    { cexRow with status := "removed" } ∈
      (syncProperties "s" "https://ex.com" cexStore [freshDict] noFaults "t").2.properties := by
  refine ⟨by decide, by decide, by decide, by decide, rfl, rfl, by decide, ?_⟩
  exact c1_mark_removed "s" "https://ex.com" "t" noFaults cexStore [freshDict]
    [("added", 1), ("updated", 0), ("found", 1)] cexRow (by decide) (by decide) (by decide)
    (by decide) rfl rfl (by decide)

/-! ### Claim C10 -/

/-- Concatenating the batches produced by `chunkAux` gives back the list. -/
theorem chunkAux_join {α : Type} (bs : Nat) (hbs : 0 < bs) :
    ∀ (fuel : Nat) (l : List α), l.length ≤ fuel → (chunkAux fuel l bs).flatten = l := by
  intro fuel
  induction fuel with
  | zero =>
    intro l hl
    rw [Nat.le_zero] at hl
    rw [List.length_eq_zero.mp hl]
    rfl
  | succ fuel ih =>
    intro l hl
    cases l with
    | nil => rfl
    | cons x xs =>
      show (((x :: xs).take bs :: chunkAux fuel ((x :: xs).drop bs) bs)).flatten = x :: xs
      rw [List.flatten_cons]
      rw [ih]
      · exact List.take_append_drop bs (x :: xs)
      · rw [List.length_drop]
        have hx : (x :: xs).length = xs.length + 1 := rfl
        omega

/-- The i-th batch produced by `chunkAux` is `l[i*bs : i*bs + bs]`. -/
theorem chunkAux_getD {α : Type} (bs : Nat) (hbs : 0 < bs) :
    ∀ (i fuel : Nat) (l : List α), l.length ≤ fuel →
      (chunkAux fuel l bs).getD i [] = (l.drop (i * bs)).take bs := by
  intro i
  induction i with
  | zero =>
    intro fuel l hl
    cases fuel with
    | zero =>
      rw [Nat.le_zero] at hl
      rw [List.length_eq_zero.mp hl, List.drop_nil, List.take_nil]
      rfl
    | succ fuel =>
      cases l with
      | nil =>
        rw [List.drop_nil, List.take_nil]
        rfl
      | cons x xs =>
        show (x :: xs).take bs = ((x :: xs).drop (0 * bs)).take bs
        rw [Nat.zero_mul, List.drop_zero]
  | succ i ih =>
    intro fuel l hl
    cases fuel with
    | zero =>
      rw [Nat.le_zero] at hl
      rw [List.length_eq_zero.mp hl, List.drop_nil, List.take_nil]
      rfl
    | succ fuel =>
      cases l with
      | nil =>
        rw [List.drop_nil, List.take_nil]
        rfl
      | cons x xs =>
        show (chunkAux fuel ((x :: xs).drop bs) bs).getD i [] =
          ((x :: xs).drop ((i + 1) * bs)).take bs
        rw [ih fuel ((x :: xs).drop bs) (by
          rw [List.length_drop]
          have hx : (x :: xs).length = xs.length + 1 := rfl
          omega)]
        rw [List.drop_drop]
        have harith : bs + i * bs = (i + 1) * bs := by ring
        rw [harith]

/-- Reconstructing a list from positional lookups over its index range. -/
theorem map_range_getD {α : Type} (dflt : α) :
    ∀ (l : List α), (List.range l.length).map (fun i => l.getD i dflt) = l := by
  intro l
  induction l with
  | nil => rfl
  | cons x xs ih =>
    rw [show (x :: xs).length = xs.length + 1 from rfl, List.range_succ_eq_map,
      List.map_cons, List.map_map]
    have hcomp : ((fun i => (x :: xs).getD i dflt) ∘ Nat.succ) = fun i => xs.getD i dflt := by
      funext i
      rfl
    rw [hcomp, ih]
    rfl

/-- Claim C10: the remote-backend orchestrator normalizes all inputs up
front, splits them into sequential batches of `batchSize`, and sends one
payload per batch carrying the source, the base URL and the batch's
properties; `finalize` is true exactly on the last batch, and
`all_external_ids` — the external ids of every normalized input property of
the whole run — is included only on the last batch. -/
theorem c10_api_payloads (source baseUrl : String) (props : List PyDict) (bs : Nat)
    (aps : List ApiProperty) (ps : List ApiPayload)
    (hbs : 0 < bs)
    (hn : normalizeAll props source baseUrl = Except.ok aps)
    (hp : apiSyncPayloads source baseUrl props bs = Except.ok ps) :
    (ps.map (fun p => p.properties)).flatten = aps ∧
    (∀ i (hi : i < ps.length),
      (ps.get ⟨i, hi⟩).source = source ∧
      (ps.get ⟨i, hi⟩).base_url = baseUrl ∧
      (ps.get ⟨i, hi⟩).properties = (aps.drop (i * bs)).take bs ∧
      ((ps.get ⟨i, hi⟩).finalize = true ↔ i = ps.length - 1) ∧
      (ps.get ⟨i, hi⟩).all_external_ids =
        (if i = ps.length - 1 then Option.some (aps.map (fun p => p.external_id))
         else Option.none)) := by
  unfold apiSyncPayloads at hp
  rw [hn, exBindOkE, if_neg (by omega)] at hp
  injection hp with hp
  subst hp
  have hlen : ((List.range (chunkList aps bs).length).map (fun i =>
      ({ source := source, base_url := baseUrl
         properties := (chunkList aps bs).getD i []
         finalize := decide (i + 1 = (chunkList aps bs).length)
         all_external_ids :=
           if i + 1 = (chunkList aps bs).length then
             Option.some (aps.map (fun p => p.external_id))
           else Option.none } : ApiPayload))).length = (chunkList aps bs).length := by
    rw [List.length_map, List.length_range]
  have hflat : (chunkList aps bs).flatten = aps := by
    show (chunkAux aps.length aps bs).flatten = aps
    exact chunkAux_join bs hbs aps.length aps (Nat.le_refl _)
  constructor
  · rw [List.map_map]
    have hcomp : ((fun p => p.properties) ∘ (fun i =>
        ({ source := source, base_url := baseUrl
           properties := (chunkList aps bs).getD i []
           finalize := decide (i + 1 = (chunkList aps bs).length)
           all_external_ids :=
             if i + 1 = (chunkList aps bs).length then
               Option.some (aps.map (fun p => p.external_id))
             else Option.none } : ApiPayload))) = fun i => (chunkList aps bs).getD i [] := by
      funext i
      rfl
    rw [hcomp, map_range_getD, hflat]
  · intro i hi
    have hi2 : i < (chunkList aps bs).length := by
      rw [hlen] at hi
      exact hi
    simp only [List.get_eq_getElem, List.getElem_map, List.getElem_range, hlen]
    refine ⟨trivial, trivial, ?_, ?_, ?_⟩
    · exact chunkAux_getD bs hbs i aps.length aps (Nat.le_refl _)
    · show decide (i + 1 = (chunkList aps bs).length) = true ↔
        i = (chunkList aps bs).length - 1
      rw [decide_eq_true_eq]
      omega
    · show (if i + 1 = (chunkList aps bs).length then
          Option.some (aps.map (fun p => p.external_id)) else Option.none) =
        (if i = (chunkList aps bs).length - 1 then
          Option.some (aps.map (fun p => p.external_id)) else Option.none)
      by_cases hc : i + 1 = (chunkList aps bs).length
      · rw [if_pos hc, if_pos (by omega)]
      · rw [if_neg hc, if_neg (by omega)]

/-- The normalized API property for `freshDict`. -/
def c10wProp : ApiProperty := {
  external_id := generateExternalId freshDict "s"
  city := PyVal.str "c", neighborhood := PyVal.none, bedrooms := Option.none
  bathrooms := Option.none, parking_spaces := Option.none, area_sqm := Option.none
  rent_price := Option.none, condo_fee := Option.none, total_price := Option.none
  address := PyVal.none, original_url := PyVal.str "", main_image_url := PyVal.none
  description := PyVal.none, raw_data := [] }

/-- The single payload sent for a one-property run with batch size 50. -/
def c10wPayload : ApiPayload := {
  source := "s", base_url := "b", properties := [c10wProp]
  finalize := true
  all_external_ids := Option.some [generateExternalId freshDict "s"] }

/-- Witness for C10: a one-property run produces one payload that is the
finalize batch and carries the complete external-id list. -/
theorem c10_api_payloads_witness :
    (0 < 50) ∧
    normalizeAll [freshDict] "s" "b" = Except.ok [c10wProp] ∧
    apiSyncPayloads "s" "b" [freshDict] 50 = Except.ok [c10wPayload] ∧
    ([c10wPayload].map (fun p => p.properties)).flatten = [c10wProp] ∧
    (([c10wPayload].get ⟨0, by decide⟩).finalize = true ↔ 0 = [c10wPayload].length - 1) ∧
    ([c10wPayload].get ⟨0, by decide⟩).all_external_ids =
      (if 0 = [c10wPayload].length - 1 then
        Option.some ([c10wProp].map (fun p => p.external_id)) else Option.none) := by
  have h1 : normalizeAll [freshDict] "s" "b" = Except.ok [c10wProp] := by decide
  have h2 : apiSyncPayloads "s" "b" [freshDict] 50 = Except.ok [c10wPayload] := by decide
  have hthm := c10_api_payloads "s" "b" [freshDict] 50 [c10wProp] [c10wPayload]
    (by omega) h1 h2
  refine ⟨by omega, h1, h2, hthm.1, ?_, ?_⟩
  · exact (hthm.2 0 (by decide)).2.2.2.1
  · exact (hthm.2 0 (by decide)).2.2.2.2

/-! ### Claim C3 -/

/-- The restriction of a store to one source's rows (tables and counters
unchanged). -/
def restrictStore (source : String) (db : Store) : Store :=
  { db with properties := db.properties.filter (fun r => r.source == source) }

/-- Simulation invariant between a full pending store `P` and the pending
store `Q` of the run started from the source-restricted initial store:
`P`'s rows of other sources are exactly the initial ones, its rows of this
source are exactly `Q`'s rows, and the other tables and counters agree. -/
structure SyncRel (source : String) (db P Q : Store) : Prop where
  nonSrc : P.properties.filter (fun r => !(r.source == source)) =
    db.properties.filter (fun r => !(r.source == source))
  srcEq : P.properties.filter (fun r => r.source == source) = Q.properties
  hist : Q.priceHistories = P.priceHistories
  logs : Q.syncLogs = P.syncLogs
  npi : Q.nextPropId = P.nextPropId
  nli : Q.nextLogId = P.nextLogId
  wf : StoreWf P

/-- Relate two fallible results: equal errors, or related successes. -/
def SimExcept {α β : Type} (R : α → β → Prop) :
    Except PyErr α → Except PyErr β → Prop
  | Except.ok a, Except.ok b => R a b
  | Except.error e, Except.error f => e = f
  | _, _ => False

/-- `updatedFields` does not change the source column. -/
theorem updatedFields_source (prop : RailsProperty) (now : String) (r : PropRow) :
    (updatedFields prop now r).source = r.source := rfl

/-- Finding under a predicate that entails the filter predicate is the same
on the filtered list. -/
theorem find?_filter_eq {α : Type} (p q : α → Bool) (hpq : ∀ x, p x = true → q x = true) :
    ∀ (l : List α), l.find? p = (l.filter q).find? p := by
  intro l
  induction l with
  | nil => rfl
  | cons x xs ih =>
    by_cases hp : p x = true
    · rw [List.find?_cons_of_pos xs hp, List.filter_cons_of_pos (hpq x hp),
        List.find?_cons_of_pos _ hp]
    · rw [List.find?_cons_of_neg xs (by simp [hp])]
      by_cases hq : q x = true
      · rw [List.filter_cons_of_pos hq, List.find?_cons_of_neg _ (by simp [hp])]
        exact ih
      · rw [List.filter_cons_of_neg (by simp [hq])]
        exact ih

/-- Filtering after a predicate-preserving map commutes. -/
theorem filter_map_comm {α : Type} (f : α → α) (p : α → Bool)
    (hf : ∀ x, p (f x) = p x) :
    ∀ l : List α, (l.map f).filter p = (l.filter p).map f := by
  intro l
  induction l with
  | nil => rfl
  | cons x xs ih =>
    rw [List.map_cons]
    by_cases hp : p x = true
    · rw [List.filter_cons_of_pos (by rw [hf]; exact hp), List.filter_cons_of_pos hp,
        List.map_cons, ih]
    · rw [List.filter_cons_of_neg (by rw [hf]; exact hp), List.filter_cons_of_neg hp, ih]

/-- An id-preserving rewrite of the rows keeps the storage invariant. -/
theorem wf_map (pend : Store) (f : PropRow → PropRow) (hf : ∀ r, (f r).id = r.id)
    (hwf : StoreWf pend) : StoreWf { pend with properties := pend.properties.map f } := by
  constructor
  · show ((pend.properties.map f).map (fun r => r.id)).Nodup
    have hids : (pend.properties.map f).map (fun r => r.id) =
        pend.properties.map (fun r => r.id) := by
      rw [List.map_map]
      exact List.map_congr_left (fun a _ => hf a)
    rw [hids]
    exact hwf.1
  · intro r hr
    obtain ⟨a, ha, rfl⟩ := List.mem_map.mp hr
    show (f a).id < pend.nextPropId
    rw [hf a]
    exact hwf.2 a ha

/-- Inserting a fresh row keeps the storage invariant. -/
theorem wf_insert (prop : RailsProperty) (now : String) (pend : Store)
    (hwf : StoreWf pend) : StoreWf (insertProperty prop now pend) := by
  constructor
  · show ((pend.properties ++ [insertRow prop now pend.nextPropId]).map
      (fun rr => rr.id)).Nodup
    rw [List.map_append, List.nodup_append]
    refine ⟨hwf.1, List.nodup_singleton _, ?_⟩
    intro x hx hx2
    obtain ⟨a, ha, rfl⟩ := List.mem_map.mp hx
    have hlt := hwf.2 a ha
    have hxid : a.id = (insertRow prop now pend.nextPropId).id := by
      simpa using hx2
    rw [show (insertRow prop now pend.nextPropId).id = pend.nextPropId from rfl] at hxid
    omega
  · show ∀ rr ∈ pend.properties ++ [insertRow prop now pend.nextPropId],
      rr.id < pend.nextPropId + 1
    intro rr hrr
    rcases List.mem_append.mp hrr with hl | hl
    · exact Nat.lt_succ_of_lt (hwf.2 rr hl)
    · rcases List.mem_singleton.mp hl with rfl
      show pend.nextPropId < pend.nextPropId + 1
      omega

/-- Coerce a success/success simulation into its payload relation. -/
theorem simOkD {α β : Type} {R : α → β → Prop} {a : α} {b : β}
    (h : SimExcept R (Except.ok a) (Except.ok b)) : R a b := h

/-- Introduce a success/success simulation from its payload relation. -/
theorem simOk {α β : Type} {R : α → β → Prop} {a : α} {b : β}
    (h : R a b) : SimExcept R (Except.ok a) (Except.ok b) := h

/-- Two equal errors are related. -/
theorem simErr {α β : Type} {R : α → β → Prop} (e : PyErr) :
    SimExcept R (Except.error e) (Except.error e) := rfl

/-- Two provably equal errors are related. -/
theorem simErrEq {α β : Type} {R : α → β → Prop} {e f : PyErr}
    (h : e = f) : SimExcept R (Except.error e) (Except.error f) := h

/-- Coerce an error/error simulation into the error equality. -/
theorem simErrD {α β : Type} {R : α → β → Prop} {e f : PyErr}
    (h : SimExcept R (Except.error e) (Except.error f)) : e = f := h

/-- A success is never related to an error. -/
theorem simOkErr {α β : Type} {R : α → β → Prop} {a : α} {f : PyErr}
    (h : SimExcept R (Except.ok a) (Except.error f)) : False := h

/-- An error is never related to a success. -/
theorem simErrOk {α β : Type} {R : α → β → Prop} {e : PyErr} {b : β}
    (h : SimExcept R (Except.error e) (Except.ok b)) : False := h

/-- A source-preserving rewrite of the rows that fixes the rows of other
sources preserves both property-table halves of the invariant. -/
theorem filter_src_map (source : String) (db P Q : Store) (f : PropRow → PropRow)
    (hrel : SyncRel source db P Q)
    (hsrcf : ∀ r, (f r).source = r.source)
    (hfix : ∀ x ∈ P.properties, (x.source == source) = false → f x = x) :
    (P.properties.map f).filter (fun r => !(r.source == source)) =
      db.properties.filter (fun r => !(r.source == source)) ∧
    (P.properties.map f).filter (fun r => r.source == source) = Q.properties.map f := by
  have hpres : ∀ x, ((f x).source == source) = (x.source == source) := by
    intro x; rw [hsrcf]
  constructor
  · rw [filter_map_comm f (fun r => !(r.source == source))
      (by intro x; simp only [hpres]) P.properties]
    have hfixall : ∀ a ∈ P.properties.filter (fun r => !(r.source == source)),
        f a = a := by
      intro a ha
      have hm := List.mem_filter.mp ha
      have hxs : (a.source == source) = false := by simpa using hm.2
      exact hfix a hm.1 hxs
    have hmapid : (P.properties.filter (fun r => !(r.source == source))).map f =
        (P.properties.filter (fun r => !(r.source == source))).map id :=
      List.map_congr_left (fun a ha => hfixall a ha)
    rw [hmapid, List.map_id, hrel.nonSrc]
  · rw [filter_map_comm f (fun r => r.source == source) hpres P.properties, hrel.srcEq]

/-- Mapping both related stores by a source- and id-preserving row rewrite
that fixes the rows of other sources preserves the invariant. -/
theorem relMapStep {source : String} {db P Q P2 Q2 : Store}
    (hrel : SyncRel source db P Q) (f : PropRow → PropRow)
    (hsrcf : ∀ r, (f r).source = r.source)
    (hidf : ∀ r, (f r).id = r.id)
    (hfix : ∀ x ∈ P.properties, (x.source == source) = false → f x = x)
    (hp : P2.properties = P.properties.map f)
    (hq : Q2.properties = Q.properties.map f)
    (hh : Q2.priceHistories = P2.priceHistories)
    (hl : Q2.syncLogs = P2.syncLogs)
    (hnp2 : P2.nextPropId = P.nextPropId)
    (hnpq : Q2.nextPropId = Q.nextPropId)
    (hnl : Q2.nextLogId = P2.nextLogId) :
    SyncRel source db P2 Q2 := by
  obtain ⟨hns, hse⟩ := filter_src_map source db P Q f hrel hsrcf hfix
  refine ⟨?_, ?_, hh, hl, ?_, hnl, ?_⟩
  · rw [hp]; exact hns
  · rw [hp, hq]; exact hse
  · rw [hnpq, hnp2, hrel.npi]
  · have hw := wf_map P f hidf hrel.wf
    refine ⟨?_, ?_⟩
    · rw [hp]; exact hw.1
    · intro r hr
      rw [hnp2]
      rw [hp] at hr
      exact hw.2 r hr

/-- Inserting the same property of this source into both related stores
preserves the invariant. -/
theorem relInsert {source : String} {db P Q : Store} (hrel : SyncRel source db P Q)
    (prop : RailsProperty) (now : String) (hps : prop.source = source) :
    SyncRel source db (insertProperty prop now P) (insertProperty prop now Q) := by
  have hsb : ((insertRow prop now P.nextPropId).source == source) = true := by
    rw [show (insertRow prop now P.nextPropId).source = prop.source from rfl, hps]
    simp
  have hq : insertRow prop now Q.nextPropId = insertRow prop now P.nextPropId := by
    rw [hrel.npi]
  have h1 : ([insertRow prop now P.nextPropId].filter (fun r => !(r.source == source))) = [] := by
    rw [List.filter_cons_of_neg (by simp [hsb])]
    rfl
  have h2 : ([insertRow prop now P.nextPropId].filter (fun r => r.source == source)) =
      [insertRow prop now P.nextPropId] := by
    rw [List.filter_cons_of_pos (by simp [hsb])]
    rfl
  refine ⟨?_, ?_, hrel.hist, hrel.logs, ?_, hrel.nli, wf_insert prop now P hrel.wf⟩
  · show (P.properties ++ [insertRow prop now P.nextPropId]).filter
        (fun r => !(r.source == source)) =
      db.properties.filter (fun r => !(r.source == source))
    rw [List.filter_append, h1, List.append_nil, hrel.nonSrc]
  · show (P.properties ++ [insertRow prop now P.nextPropId]).filter
        (fun r => r.source == source) =
      Q.properties ++ [insertRow prop now Q.nextPropId]
    rw [List.filter_append, h2, hrel.srcEq, hq]
  · show Q.nextPropId + 1 = P.nextPropId + 1
    rw [hrel.npi]

/-- `_update_property` run on both related stores from the same found row:
the two runs fail identically or produce related stores and equal cursors. -/
theorem update_sim {source now : String} {faults : Nat → Bool} {existing : PropRow}
    {prop : RailsProperty} {db P Q : Store} {k : Nat}
    (hrel : SyncRel source db P Q) (hmem : existing ∈ P.properties)
    (hsrc : existing.source = source) :
    SimExcept (fun x y => SyncRel source db x.1 y.1 ∧ x.2 = y.2)
      (updateProperty faults existing prop now P k)
      (updateProperty faults existing prop now Q k) := by
  have hsrcf : ∀ r : PropRow,
      ((if r.id = existing.id then updatedFields prop now r else r)).source = r.source := by
    intro r
    by_cases hc : r.id = existing.id
    · rw [if_pos hc, updatedFields_source]
    · rw [if_neg hc]
  have hidf : ∀ r : PropRow,
      ((if r.id = existing.id then updatedFields prop now r else r)).id = r.id := by
    intro r
    by_cases hc : r.id = existing.id
    · rw [if_pos hc, updatedFields_id]
    · rw [if_neg hc]
  have hfix : ∀ x ∈ P.properties, (x.source == source) = false →
      (if x.id = existing.id then updatedFields prop now x else x) = x := by
    intro x hx hxs
    have hxne : x ≠ existing := by
      intro hh
      rw [hh, hsrc] at hxs
      simp at hxs
    have hidne : x.id ≠ existing.id :=
      fun hh => hxne (List.inj_on_of_nodup_map hrel.wf.1 hx hmem hh)
    rw [if_neg hidne]
  unfold updateProperty
  by_cases hc : (priceChanged existing.rent_price existing.condo_fee
      prop.rent_price prop.condo_fee) = true
  · simp only [if_pos hc]
    cases hg : execGuard faults k with
    | error e => simp only [hg, exMapErr, exBindErrE]; exact simErr e
    | ok k1 =>
      simp only [hg, exMapOk, exBindOkE]
      cases hg2 : execGuard faults k1 with
      | error e => simp only [hg2, exMapErr]; exact simErr e
      | ok k3 =>
        simp only [hg2, exMapOk]
        refine simOk ⟨?_, rfl⟩
        refine relMapStep hrel
          (fun r => if r.id = existing.id then updatedFields prop now r else r)
          hsrcf hidf hfix rfl rfl ?_ hrel.logs rfl rfl hrel.nli
        show Q.priceHistories ++ _ = P.priceHistories ++ _
        rw [hrel.hist]
  · simp only [if_neg hc]
    simp only [exBindOkE]
    cases hg2 : execGuard faults k with
    | error e => simp only [hg2, exMapErr]; exact simErr e
    | ok k3 =>
      simp only [hg2, exMapOk]
      refine simOk ⟨?_, rfl⟩
      exact relMapStep hrel
        (fun r => if r.id = existing.id then updatedFields prop now r else r)
        hsrcf hidf hfix rfl rfl hrel.hist hrel.logs rfl rfl hrel.nli

/-- `_upsert_property` when the lookup finds a row. -/
theorem upsert_eq_some {faults : Nat → Bool} {prop : RailsProperty} {now : String}
    {pend : Store} {existing : PropRow}
    (hf : pend.properties.find? (fun r =>
        r.external_id == prop.external_id && r.source == prop.source) =
      Option.some existing) (k : Nat) :
    upsertProperty faults prop now pend k =
      Except.bind (execGuard faults k) (fun k1 =>
        Except.map (fun pk => (pk.1, pk.2, "updated"))
          (updateProperty faults existing prop now pend k1)) := by
  unfold upsertProperty
  rw [hf]

/-- `_upsert_property` when the lookup finds nothing. -/
theorem upsert_eq_none {faults : Nat → Bool} {prop : RailsProperty} {now : String}
    {pend : Store}
    (hf : pend.properties.find? (fun r =>
        r.external_id == prop.external_id && r.source == prop.source) =
      Option.none) (k : Nat) :
    upsertProperty faults prop now pend k =
      Except.bind (execGuard faults k) (fun k1 =>
        Except.map (fun k2 => (insertProperty prop now pend, k2, "added"))
          (execGuard faults k1)) := by
  unfold upsertProperty
  rw [hf]

/-- `_upsert_property` for a property of this source run on both related
stores: identical failures, or related stores with equal cursor and result. -/
theorem upsert_sim {source now : String} {faults : Nat → Bool} {prop : RailsProperty}
    {db P Q : Store} {k : Nat}
    (hrel : SyncRel source db P Q) (hps : prop.source = source) :
    SimExcept (fun x y => SyncRel source db x.1 y.1 ∧ x.2.1 = y.2.1 ∧ x.2.2 = y.2.2)
      (upsertProperty faults prop now P k) (upsertProperty faults prop now Q k) := by
  have hpq : ∀ x : PropRow,
      (x.external_id == prop.external_id && x.source == prop.source) = true →
      (x.source == source) = true := by
    intro x hx
    have h2 := ((Bool.and_eq_true _ _).mp hx).2
    rw [show x.source = prop.source from eq_of_beq h2, hps]
    simp
  have hfind : P.properties.find? (fun r =>
      r.external_id == prop.external_id && r.source == prop.source) =
      Q.properties.find? (fun r =>
      r.external_id == prop.external_id && r.source == prop.source) := by
    rw [find?_filter_eq _ _ hpq P.properties, hrel.srcEq]
  cases hfp : P.properties.find? (fun r =>
      r.external_id == prop.external_id && r.source == prop.source) with
  | some existing =>
    have hfq : Q.properties.find? (fun r =>
        r.external_id == prop.external_id && r.source == prop.source) =
        Option.some existing := by
      rw [← hfind, hfp]
    rw [upsert_eq_some hfp k, upsert_eq_some hfq k]
    cases hg : execGuard faults k with
    | error e => simp only [hg, exBindErrE]; exact simErr e
    | ok k1 =>
      simp only [hg, exBindOkE]
      have hmemP : existing ∈ P.properties := List.mem_of_find?_eq_some hfp
      have hsrcE : existing.source = source := by
        have hpred := List.find?_some hfp
        have h2 := ((Bool.and_eq_true _ _).mp hpred).2
        rw [eq_of_beq h2, hps]
      have husim : SimExcept (fun x y => SyncRel source db x.1 y.1 ∧ x.2 = y.2)
          (updateProperty faults existing prop now P k1)
          (updateProperty faults existing prop now Q k1) := update_sim hrel hmemP hsrcE
      cases hu : updateProperty faults existing prop now P k1 with
      | error e =>
        cases hu2 : updateProperty faults existing prop now Q k1 with
        | error e2 =>
          rw [hu, hu2] at husim
          simp only [hu, hu2, exMapErr]
          exact simErrEq (simErrD husim)
        | ok y =>
          rw [hu, hu2] at husim
          exact False.elim (simErrOk husim)
      | ok x =>
        cases hu2 : updateProperty faults existing prop now Q k1 with
        | error e2 =>
          rw [hu, hu2] at husim
          exact False.elim (simOkErr husim)
        | ok y =>
          rw [hu, hu2] at husim
          have h2 := simOkD husim
          simp only [hu, hu2, exMapOk]
          exact simOk ⟨h2.1, h2.2 ▸ rfl, rfl⟩
  | none =>
    have hfq : Q.properties.find? (fun r =>
        r.external_id == prop.external_id && r.source == prop.source) =
        Option.none := by
      rw [← hfind, hfp]
    rw [upsert_eq_none hfp k, upsert_eq_none hfq k]
    cases hg : execGuard faults k with
    | error e => simp only [hg, exBindErrE]; exact simErr e
    | ok k1 =>
      simp only [hg, exBindOkE]
      cases hg2 : execGuard faults k1 with
      | error e => simp only [hg2, exMapErr]; exact simErr e
      | ok k3 =>
        simp only [hg2, exMapOk]
        exact simOk ⟨relInsert hrel prop now hps, rfl, rfl⟩

/-- `_start_sync_log` run on both related stores: identical failures, or
related stores with equal cursor and equal log rowid. -/
theorem start_sim {source now : String} {faults : Nat → Bool} {db P Q : Store}
    (hrel : SyncRel source db P Q) (k : Nat) :
    SimExcept (fun x y => SyncRel source db x.1 y.1 ∧ x.2.1 = y.2.1 ∧ x.2.2 = y.2.2)
      (startSyncLog source now faults P k) (startSyncLog source now faults Q k) := by
  unfold startSyncLog
  cases hg : execGuard faults k with
  | error e => simp only [hg, exMapErr]; exact simErr e
  | ok k1 =>
    simp only [hg, exMapOk]
    refine simOk ⟨⟨hrel.nonSrc, hrel.srcEq, hrel.hist, ?_, hrel.npi, ?_, hrel.wf⟩,
      rfl, hrel.nli.symm⟩
    · show Q.syncLogs ++ _ = P.syncLogs ++ _
      rw [hrel.logs, hrel.nli]
    · show Q.nextLogId + 1 = P.nextLogId + 1
      rw [hrel.nli]

/-- `_mark_removed_properties` run on both related stores: identical
failures, or related stores with equal cursor. -/
theorem mark_sim {source : String} {faults : Nat → Bool} {db P Q : Store}
    (hrel : SyncRel source db P Q) (seen : List String) (k : Nat) :
    SimExcept (fun x y => SyncRel source db x.1 y.1 ∧ x.2 = y.2)
      (markRemovedProperties source faults seen P k)
      (markRemovedProperties source faults seen Q k) := by
  unfold markRemovedProperties
  by_cases hs : seen = []
  · simp only [if_pos hs]
    exact simOk ⟨hrel, rfl⟩
  · simp only [if_neg hs]
    cases hg : execGuard faults k with
    | error e => simp only [hg, exMapErr]; exact simErr e
    | ok k1 =>
      simp only [hg, exMapOk]
      refine simOk ⟨?_, rfl⟩
      refine relMapStep hrel
        (fun r => if r.source == source && r.status == "active" &&
            !(seen.contains r.external_id) then { r with status := "removed" } else r)
        ?_ ?_ ?_ rfl rfl hrel.hist hrel.logs rfl rfl hrel.nli
      · intro r
        by_cases hc : (r.source == source && r.status == "active" &&
            !(seen.contains r.external_id)) = true
        · simp only [if_pos hc]
        · simp only [if_neg hc]
      · intro r
        by_cases hc : (r.source == source && r.status == "active" &&
            !(seen.contains r.external_id)) = true
        · simp only [if_pos hc]
        · simp only [if_neg hc]
      · intro x hx hxs
        have hcond : (x.source == source && x.status == "active" &&
            !(seen.contains x.external_id)) = false := by
          simp [hxs]
        have hcnot : ¬((x.source == source && x.status == "active" &&
            !(seen.contains x.external_id)) = true) := by
          rw [hcond]
          exact Bool.false_ne_true
        simp only [if_neg hcnot]

/-- The per-property loop run on both related stores: identical failures,
or related stores with equal cursor, statistics and seen-id list. -/
theorem loop_sim {source baseUrl now : String} {faults : Nat → Bool} {db : Store} :
    ∀ (props : List PyDict) (P Q : Store) (k : Nat) (stats : StatsD) (seen : List String),
      SyncRel source db P Q →
      SimExcept (fun x y => SyncRel source db x.1 y.1 ∧ x.2.1 = y.2.1 ∧
          x.2.2.1 = y.2.2.1 ∧ x.2.2.2 = y.2.2.2)
        (syncLoop source baseUrl now faults props P k stats seen)
        (syncLoop source baseUrl now faults props Q k stats seen) := by
  intro props
  induction props with
  | nil =>
    intro P Q k stats seen hrel
    unfold syncLoop
    exact simOk ⟨hrel, rfl, rfl, rfl⟩
  | cons d rest ih =>
    intro P Q k stats seen hrel
    unfold syncLoop
    cases hfp : fromProcrawl d source baseUrl with
    | error e => simp only [hfp, exBindErrE]; exact simErr e
    | ok prop =>
      simp only [hfp, exBindOkE]
      have hps : prop.source = source := (fromProcrawl_ok_proj hfp).2.1
      have husim : SimExcept (fun x y => SyncRel source db x.1 y.1 ∧ x.2.1 = y.2.1 ∧
          x.2.2 = y.2.2)
          (upsertProperty faults prop now P k) (upsertProperty faults prop now Q k) :=
        upsert_sim hrel hps
      cases hup : upsertProperty faults prop now P k with
      | error e =>
        cases huq : upsertProperty faults prop now Q k with
        | error e2 =>
          rw [hup, huq] at husim
          simp only [hup, huq, exBindErrE]
          exact simErrEq (simErrD husim)
        | ok y =>
          rw [hup, huq] at husim
          exact False.elim (simErrOk husim)
      | ok x =>
        cases huq : upsertProperty faults prop now Q k with
        | error e2 =>
          rw [hup, huq] at husim
          exact False.elim (simOkErr husim)
        | ok y =>
          rw [hup, huq] at husim
          have h2 := simOkD husim
          simp only [hup, huq, exBindOkE]
          rw [← h2.2.1, ← h2.2.2]
          exact ih x.1 y.1 x.2.1 (statInc stats x.2.2) (seen ++ [prop.external_id]) h2.1

/-- Finalizing the run log on both related stores preserves the invariant. -/
theorem finish_rel {source : String} {db P Q : Store} (hrel : SyncRel source db P Q)
    (status : String) (error : Option String) (stats : StatsD) (logId : Nat)
    (now : String) :
    SyncRel source db (finishSyncLog status error stats logId now P)
      (finishSyncLog status error stats logId now Q) := by
  refine ⟨hrel.nonSrc, hrel.srcEq, hrel.hist, ?_, hrel.npi, hrel.nli, hrel.wf⟩
  show Q.syncLogs.map _ = P.syncLogs.map _
  rw [hrel.logs]

/-- The whole `try` block run on the full store and on its source
restriction: identical failures, or related stores with equal statistics. -/
theorem run_sim {source baseUrl : String} {db : Store} {props : List PyDict}
    {faults : Nat → Bool} {now : String} (hwf : StoreWf db) :
    SimExcept (fun x y => SyncRel source db x.1 y.1 ∧ x.2 = y.2)
      (syncRun source baseUrl db props faults now)
      (syncRun source baseUrl (restrictStore source db) props faults now) := by
  have hrel0 : SyncRel source db db (restrictStore source db) :=
    ⟨rfl, rfl, rfl, rfl, rfl, rfl, hwf⟩
  unfold syncRun
  have hssim : SimExcept (fun x y => SyncRel source db x.1 y.1 ∧ x.2.1 = y.2.1 ∧
      x.2.2 = y.2.2)
      (startSyncLog source now faults db 0)
      (startSyncLog source now faults (restrictStore source db) 0) := start_sim hrel0 0
  cases hsP : startSyncLog source now faults db 0 with
  | error e =>
    cases hsQ : startSyncLog source now faults (restrictStore source db) 0 with
    | error e2 =>
      rw [hsP, hsQ] at hssim
      simp only [hsP, hsQ, exBindErrE]
      exact simErrEq (simErrD hssim)
    | ok y =>
      rw [hsP, hsQ] at hssim
      exact False.elim (simErrOk hssim)
  | ok x =>
    cases hsQ : startSyncLog source now faults (restrictStore source db) 0 with
    | error e2 =>
      rw [hsP, hsQ] at hssim
      exact False.elim (simOkErr hssim)
    | ok y =>
      rw [hsP, hsQ] at hssim
      have hs2 := simOkD hssim
      simp only [hsP, hsQ, exBindOkE]
      rw [← hs2.2.1, ← hs2.2.2]
      have hlsim : SimExcept (fun u v => SyncRel source db u.1 v.1 ∧ u.2.1 = v.2.1 ∧
          u.2.2.1 = v.2.2.1 ∧ u.2.2.2 = v.2.2.2)
          (syncLoop source baseUrl now faults props x.1 x.2.1
            [("added", 0), ("updated", 0), ("found", props.length)] [])
          (syncLoop source baseUrl now faults props y.1 x.2.1
            [("added", 0), ("updated", 0), ("found", props.length)] []) :=
        loop_sim props x.1 y.1 x.2.1
          [("added", 0), ("updated", 0), ("found", props.length)] [] hs2.1
      cases hlP : syncLoop source baseUrl now faults props x.1 x.2.1
          [("added", 0), ("updated", 0), ("found", props.length)] [] with
      | error e =>
        cases hlQ : syncLoop source baseUrl now faults props y.1 x.2.1
            [("added", 0), ("updated", 0), ("found", props.length)] [] with
        | error e2 =>
          rw [hlP, hlQ] at hlsim
          simp only [hlP, hlQ, exBindErrE]
          exact simErrEq (simErrD hlsim)
        | ok v =>
          rw [hlP, hlQ] at hlsim
          exact False.elim (simErrOk hlsim)
      | ok u =>
        cases hlQ : syncLoop source baseUrl now faults props y.1 x.2.1
            [("added", 0), ("updated", 0), ("found", props.length)] [] with
        | error e2 =>
          rw [hlP, hlQ] at hlsim
          exact False.elim (simOkErr hlsim)
        | ok v =>
          rw [hlP, hlQ] at hlsim
          have hl2 := simOkD hlsim
          simp only [hlP, hlQ, exBindOkE]
          rw [← hl2.2.1, ← hl2.2.2.1, ← hl2.2.2.2]
          have hmsim : SimExcept (fun w z => SyncRel source db w.1 z.1 ∧ w.2 = z.2)
              (markRemovedProperties source faults u.2.2.2 u.1 u.2.1)
              (markRemovedProperties source faults u.2.2.2 v.1 u.2.1) :=
            mark_sim hl2.1 u.2.2.2 u.2.1
          cases hmP : markRemovedProperties source faults u.2.2.2 u.1 u.2.1 with
          | error e =>
            cases hmQ : markRemovedProperties source faults u.2.2.2 v.1 u.2.1 with
            | error e2 =>
              rw [hmP, hmQ] at hmsim
              simp only [hmP, hmQ, exBindErrE]
              exact simErrEq (simErrD hmsim)
            | ok z =>
              rw [hmP, hmQ] at hmsim
              exact False.elim (simErrOk hmsim)
          | ok w =>
            cases hmQ : markRemovedProperties source faults u.2.2.2 v.1 u.2.1 with
            | error e2 =>
              rw [hmP, hmQ] at hmsim
              exact False.elim (simOkErr hmsim)
            | ok z =>
              rw [hmP, hmQ] at hmsim
              have hm2 := simOkD hmsim
              simp only [hmP, hmQ, exBindOkE]
              rw [← hm2.2]
              cases hg : execGuard faults w.2 with
              | error e => simp only [hg, exMapErr]; exact simErr e
              | ok k4 =>
                simp only [hg, exMapOk]
                exact simOk ⟨finish_rel hm2.1 "completed" Option.none u.2.2.1 x.2.2 now, rfl⟩

/-- Claim C3: cross-source isolation of `sync_properties`.  For every run
with source `source` on a store satisfying the storage invariant, (i) the
rows of every other source in the committed store are exactly the initial
ones — they are never modified or marked removed, even when they share
external ids with this source's rows, because every lookup and UPDATE is
keyed on the source column too — and (ii) the returned result (statistics
or re-raised exception) is identical to the result of the same run on the
store restricted to this source's rows, so rows of other sources are
neither read as upsert targets nor counted in the returned statistics. -/
theorem c3_cross_source_isolation (source baseUrl now : String) (faults : Nat → Bool)
    (db : Store) (props : List PyDict) (hwf : StoreWf db) :
    (syncProperties source baseUrl db props faults now).2.properties.filter
        (fun r => !(r.source == source)) =
      db.properties.filter (fun r => !(r.source == source)) ∧
    (syncProperties source baseUrl db props faults now).1 =
      (syncProperties source baseUrl (restrictStore source db) props faults now).1 := by
  have hsim : SimExcept (fun x y => SyncRel source db x.1 y.1 ∧ x.2 = y.2)
      (syncRun source baseUrl db props faults now)
      (syncRun source baseUrl (restrictStore source db) props faults now) := run_sim hwf
  unfold syncProperties
  cases hP : syncRun source baseUrl db props faults now with
  | error e =>
    cases hQ : syncRun source baseUrl (restrictStore source db) props faults now with
    | error e2 =>
      rw [hP, hQ] at hsim
      refine ⟨rfl, ?_⟩
      show Except.error e = (Except.error e2 : Except PyErr StatsD)
      rw [simErrD hsim]
    | ok y =>
      rw [hP, hQ] at hsim
      exact False.elim (simErrOk hsim)
  | ok x =>
    cases hQ : syncRun source baseUrl (restrictStore source db) props faults now with
    | error e2 =>
      rw [hP, hQ] at hsim
      exact False.elim (simOkErr hsim)
    | ok y =>
      rw [hP, hQ] at hsim
      have h2 := simOkD hsim
      refine ⟨h2.1.nonSrc, ?_⟩
      show Except.ok x.2 = (Except.ok y.2 : Except PyErr StatsD)
      rw [h2.2]

/-- A row of a different source (`other`) whose external id collides with
the external id the run computes for `freshDict` under source `s`. -/
def c3OtherRow : PropRow := { cexRow with
  id := 2
  source := "other"
  external_id := generateExternalId freshDict "s" }

/-- A two-source store: an active `s` row and a colliding `other` row. -/
def c3Store : Store :=
  { cexStore with properties := [cexRow, c3OtherRow], nextPropId := 3 }

/-- Witness for C3: the two-source store with colliding external ids
satisfies the storage invariant, and the isolation theorem applies to a
sync of `freshDict` for source `s` over it. -/
theorem c3_cross_source_isolation_witness :
    StoreWf c3Store ∧
    ((syncProperties "s" "https://ex.com" c3Store [freshDict] noFaults "t").2.properties.filter
        (fun r => !(r.source == "s")) =
      c3Store.properties.filter (fun r => !(r.source == "s")) ∧
    (syncProperties "s" "https://ex.com" c3Store [freshDict] noFaults "t").1 =
      (syncProperties "s" "https://ex.com" (restrictStore "s" c3Store) [freshDict]
        noFaults "t").1) :=
  ⟨by decide, c3_cross_source_isolation "s" "https://ex.com" "t" noFaults c3Store
    [freshDict] (by decide)⟩
